import Mathlib

/-!
# Cross-verification drivers of go-qrllib (`.github/cross-verify/*.c`)

A shallow embedding of the seven C programs that exchange keys, signatures and
messages between go-qrllib and the reference implementations through files
under `/tmp`, and the properties of their translation and protocol layer.

* bytes (`uint8_t`) are `Fin 256`; buffers are lists of bytes of the declared size;
* uninitialised memory has arbitrary content, supplied by the world;
* the blob store maps a path to the content of the file, if the file exists;
* the cryptographic entry points are uninterpreted functions;
* a run yields the exit status, the pieces of text printed, the local state
  at the verification call (if the call is reached) and the files written.
-/

namespace CrossVerify

/-- One `uint8_t`. -/
abbrev Byte := Fin 256

/-- The environment of one process: the files under `/tmp`, the content of
uninitialised stack arrays (per variable name) and of fresh heap memory, and
whether `malloc` of a given size succeeds. -/
structure World where
  blobs : String → Option (List Byte)
  junk : String → Nat → Byte
  heapJunk : Nat → Byte
  mallocOk : Nat → Bool

/-- The result of one process. `call` is the local state at the verification call,
`none` when the call is never made; `written` lists the files written, in order. -/
structure Run (κ : Type) where
  status : Int
  out : List String
  call : Option κ
  written : List (String × List Byte)

/-- The characters sent to standard output: the printed pieces, concatenated. -/
def stdoutText (out : List String) : List Char :=
  (out.map String.toList).flatten

/-- A local array `uint8_t name[n];` without initialiser. -/
def uninit (w : World) (name : String) (n : Nat) : List Byte :=
  (List.range n).map (w.junk name)

/-- The call `fopen(path, "rb")`: the content of the file, `none` for `NULL`. -/
def fopen (w : World) (path : String) : Option (List Byte) :=
  w.blobs path

/-- The call `fread(buf, 1, n, f)` on a file just opened: the first `min n |f|` bytes of the
file go to the front of `buf`; the count of bytes read is returned. -/
def fread (buf : List Byte) (n : Nat) (f : List Byte) : List Byte × Nat :=
  (f.take n ++ buf.drop (min n f.length), min n f.length)

/-- The call `fwrite(buf, 1, n, f)` followed by `fclose`: the file holds the first `n` bytes. -/
def fwrite (buf : List Byte) (n : Nat) : List Byte :=
  buf.take n

/-- The indices of the destination that `memcpy(dst + off, src, n)` stores to. -/
def memcpyIdx (off n : Nat) : List Nat :=
  (List.range n).map (fun i => off + i)

/-- The call `memcpy(dst + off, src, n)`, byte by byte: one store to each of the indices
of `memcpyIdx off n`, of the byte of `src` at the same distance from its start. -/
def memcpy (dst : List Byte) (off : Nat) (src : List Byte) (n : Nat) : List Byte :=
  (memcpyIdx off n).foldl (fun d j => d.set j (src.getD (j - off) 0)) dst

/-- The call `malloc(n)`: fresh memory of `n` bytes, or `none` for `NULL`. -/
def malloc (w : World) (n : Nat) : Option (List Byte) :=
  if w.mallocOk n then some ((List.range n).map w.heapJunk) else none

/-! ## xmss_verify_ref.c -/

def XMSS_SHA2_10_256_OID : Nat := 0x00000001
def PARAM_N : Nat := 32
def PARAM_HEIGHT : Nat := 10
def REF_PK_BYTES : Nat := 4 + 2 * PARAM_N
def REF_SIG_BYTES : Nat := 4 + PARAM_N + 67 * PARAM_N + PARAM_HEIGHT * PARAM_N

/-- The locals of `main` in xmss_verify_ref.c at the call
`xmss_sign_open(msg_out, &msg_out_len, sm, siglen + msglen, ref_pk)`;
`smStores` (ghost) lists the indices of `sm` the two `memcpy` calls stored to. -/
structure XmssLocals where
  goqrllib_pk : List Byte
  ref_pk : List Byte
  sig : List Byte
  msg : List Byte
  msg_out : List Byte
  siglen : Nat
  msglen : Nat
  sm : List Byte
  smStores : List Nat

/-- The arguments the reference receives: the signed message, its length, the public key. -/
structure XmssArgs where
  sm : List Byte
  smlen : Nat
  pk : List Byte

/-- The arguments of the call made in state `l`. -/
def XmssLocals.args (l : XmssLocals) : XmssArgs :=
  ⟨l.sm, l.siglen + l.msglen, l.ref_pk⟩

/-- The program xmss_verify_ref.c. -/
def xmss_verify_ref (w : World) (xmss_sign_open : XmssArgs → Int) : Run XmssLocals :=
  let goqrllib_pk := uninit w "goqrllib_pk" 64
  let ref_pk := uninit w "ref_pk" REF_PK_BYTES
  let sig := uninit w "sig" REF_SIG_BYTES
  let msg := uninit w "msg" 256
  let msg_out := uninit w "msg_out" (256 + REF_SIG_BYTES)
  match fopen w "/tmp/xmss_pk.bin" with
  | none => ⟨1, ["Cannot open pk\n"], none, []⟩
  | some f =>
    let r := fread goqrllib_pk 64 f
    if r.2 ≠ 64 then ⟨1, ["Failed to read pk\n"], none, []⟩ else
    let goqrllib_pk := r.1
    match fopen w "/tmp/xmss_sig.bin" with
    | none => ⟨1, ["Cannot open sig\n"], none, []⟩
    | some f =>
      let r := fread sig REF_SIG_BYTES f
      let sig := r.1
      let siglen := r.2
      match fopen w "/tmp/xmss_msg.bin" with
      | none => ⟨1, ["Cannot open msg\n"], none, []⟩
      | some f =>
        let r := fread msg 256 f
        let msg := r.1
        let msglen := r.2
        let ref_pk := ref_pk.set 0 0x00
        let ref_pk := ref_pk.set 1 0x00
        let ref_pk := ref_pk.set 2 0x00
        let ref_pk := ref_pk.set 3 0x01
        let ref_pk := memcpy ref_pk 4 goqrllib_pk 64
        let out :=
          ["XMSS reference (XMSS-SHA2_10_256) verifier:\n",
           "  PK size (go-qrllib):  64 bytes\n",
           "  PK size (reference):  " ++ toString REF_PK_BYTES ++ " bytes\n",
           "  Sig size: " ++ toString siglen ++ " bytes (expected " ++
             toString REF_SIG_BYTES ++ ")\n",
           "  Msg size: " ++ toString msglen ++ " bytes\n"]
        match malloc w (siglen + msglen) with
        | none => ⟨1, out ++ ["Memory allocation failed\n"], none, []⟩
        | some sm =>
          let sm := memcpy sm 0 sig siglen
          let sm := memcpy sm siglen msg msglen
          let l : XmssLocals :=
            ⟨goqrllib_pk, ref_pk, sig, msg, msg_out, siglen, msglen, sm,
             memcpyIdx 0 siglen ++ memcpyIdx siglen msglen⟩
          let ret := xmss_sign_open l.args
          ⟨if ret ≠ 0 then 1 else 0,
           out ++ ["  Verification: " ++ (if ret = 0 then "PASSED" else "FAILED") ++ "\n"],
           some l, []⟩

/-! ## The lattice and SPHINCS+ programs

The sizes `CRYPTO_PUBLICKEYBYTES`, `CRYPTO_SECRETKEYBYTES`, `CRYPTO_BYTES` (params.h of
pq-crystals) and `SPX_N`, `SPX_PK_BYTES`, `SPX_SK_BYTES`, `SPX_BYTES` (params.h of the
SPHINCS+ reference) come from headers outside the repository: they are parameters. -/

structure LatticeParams where
  CRYPTO_PUBLICKEYBYTES : Nat
  CRYPTO_SECRETKEYBYTES : Nat
  CRYPTO_BYTES : Nat

structure SpxParams where
  SPX_N : Nat
  SPX_PK_BYTES : Nat
  SPX_SK_BYTES : Nat
  SPX_BYTES : Nat

/-- The arguments of `crypto_sign_verify(sig, siglen, msg, msglen, pk)`; `sig` and `msg`
are the buffers pointed to, of which the callee is told to use `siglen` and `msglen` bytes. -/
structure VerifyArgs where
  sig : List Byte
  siglen : Nat
  msg : List Byte
  msglen : Nat
  pk : List Byte

/-- The arguments of `crypto_sign_verify(sig, siglen, msg, msglen, ctx, ctxlen, pk)`. -/
structure CtxVerifyArgs where
  sig : List Byte
  siglen : Nat
  msg : List Byte
  msglen : Nat
  ctx : List Byte
  ctxlen : Nat
  pk : List Byte

/-- The signature a verification call is handed: `siglen` bytes starting at `sig`. -/
def VerifyArgs.signature (a : VerifyArgs) : List Byte := a.sig.take a.siglen

/-- The signature a verification call with context is handed. -/
def CtxVerifyArgs.signature (a : CtxVerifyArgs) : List Byte := a.sig.take a.siglen

/-- The context a verification call is handed: `ctxlen` bytes starting at `ctx`. -/
def CtxVerifyArgs.context (a : CtxVerifyArgs) : List Byte := a.ctx.take a.ctxlen

/-- What a key generation leaves in `pk` and `sk`, and its return value. -/
structure KeypairOut where
  pk : List Byte
  sk : List Byte
  ret : Int

/-- What a signing call leaves in `sig` and `*siglen`, and its return value. -/
structure SignOut where
  sig : List Byte
  siglen : Nat
  ret : Int

/-- A string literal as an array of `uint8_t`, with its terminating NUL. -/
def cstr (s : String) : List Byte :=
  s.toList.map (fun c => Fin.ofNat c.toNat) ++ [0]

/-- The call `strlen`: the number of bytes before the first NUL. -/
def strlen (b : List Byte) : Nat :=
  (b.takeWhile (fun x => x ≠ 0)).length

/-- The program dilithium_verify_ref.c. -/
def dilithium_verify_ref (P : LatticeParams) (w : World)
    (crypto_sign_verify : VerifyArgs → Int) : Run VerifyArgs :=
  let pk := uninit w "pk" P.CRYPTO_PUBLICKEYBYTES
  let sig := uninit w "sig" P.CRYPTO_BYTES
  let msg := uninit w "msg" 256
  match fopen w "/tmp/dilithium_pk.bin" with
  | none => ⟨1, ["Cannot open pk\n"], none, []⟩
  | some f =>
    let r := fread pk P.CRYPTO_PUBLICKEYBYTES f
    if r.2 ≠ P.CRYPTO_PUBLICKEYBYTES then ⟨1, ["Failed to read pk\n"], none, []⟩ else
    let pk := r.1
    match fopen w "/tmp/dilithium_sig.bin" with
    | none => ⟨1, ["Cannot open sig\n"], none, []⟩
    | some f =>
      let r := fread sig P.CRYPTO_BYTES f
      let sig := r.1
      let siglen := r.2
      match fopen w "/tmp/dilithium_msg.bin" with
      | none => ⟨1, ["Cannot open msg\n"], none, []⟩
      | some f =>
        let r := fread msg 256 f
        let msg := r.1
        let msglen := r.2
        let out :=
          ["pq-crystals Dilithium5 verifier:\n",
           "  PK size:  " ++ toString P.CRYPTO_PUBLICKEYBYTES ++ " bytes\n",
           "  Sig size: " ++ toString siglen ++ " bytes\n",
           "  Msg size: " ++ toString msglen ++ " bytes\n"]
        let a : VerifyArgs := ⟨sig, siglen, msg, msglen, pk⟩
        let ret := crypto_sign_verify a
        ⟨if ret ≠ 0 then 1 else 0,
         out ++ ["  Verification: " ++ (if ret = 0 then "PASSED" else "FAILED") ++ "\n"],
         some a, []⟩

/-- The program mldsa87_verify_ref.c. -/
def mldsa87_verify_ref (P : LatticeParams) (w : World)
    (crypto_sign_verify : CtxVerifyArgs → Int) : Run CtxVerifyArgs :=
  let pk := uninit w "pk" P.CRYPTO_PUBLICKEYBYTES
  let sig := uninit w "sig" P.CRYPTO_BYTES
  let msg := uninit w "msg" 256
  let ctx := uninit w "ctx" 256
  match fopen w "/tmp/mldsa_pk.bin" with
  | none => ⟨1, ["Cannot open pk\n"], none, []⟩
  | some f =>
    let r := fread pk P.CRYPTO_PUBLICKEYBYTES f
    if r.2 ≠ P.CRYPTO_PUBLICKEYBYTES then ⟨1, ["Failed to read pk\n"], none, []⟩ else
    let pk := r.1
    match fopen w "/tmp/mldsa_sig.bin" with
    | none => ⟨1, ["Cannot open sig\n"], none, []⟩
    | some f =>
      let r := fread sig P.CRYPTO_BYTES f
      let sig := r.1
      let siglen := r.2
      match fopen w "/tmp/mldsa_msg.bin" with
      | none => ⟨1, ["Cannot open msg\n"], none, []⟩
      | some f =>
        let r := fread msg 256 f
        let msg := r.1
        let msglen := r.2
        match fopen w "/tmp/mldsa_ctx.bin" with
        | none => ⟨1, ["Cannot open ctx\n"], none, []⟩
        | some f =>
          let r := fread ctx 256 f
          let ctx := r.1
          let ctxlen := r.2
          let out :=
            ["pq-crystals ML-DSA-87 verifier:\n",
             "  PK size:  " ++ toString P.CRYPTO_PUBLICKEYBYTES ++ " bytes\n",
             "  Sig size: " ++ toString siglen ++ " bytes\n",
             "  Msg size: " ++ toString msglen ++ " bytes\n",
             "  Ctx size: " ++ toString ctxlen ++ " bytes\n"]
          let a : CtxVerifyArgs := ⟨sig, siglen, msg, msglen, ctx, ctxlen, pk⟩
          let ret := crypto_sign_verify a
          ⟨if ret ≠ 0 then 1 else 0,
           out ++ ["  Verification: " ++ (if ret = 0 then "PASSED" else "FAILED") ++ "\n"],
           some a, []⟩

/-- The program sphincs_verify_ref.c. -/
def sphincs_verify_ref (P : SpxParams) (w : World)
    (crypto_sign_verify : VerifyArgs → Int) : Run VerifyArgs :=
  let pk := uninit w "pk" P.SPX_PK_BYTES
  let sig := uninit w "sig" P.SPX_BYTES
  let msg := uninit w "msg" 256
  match fopen w "/tmp/sphincs_pk.bin" with
  | none => ⟨1, ["Cannot open pk\n"], none, []⟩
  | some f =>
    let r := fread pk P.SPX_PK_BYTES f
    if r.2 ≠ P.SPX_PK_BYTES then ⟨1, ["Failed to read pk\n"], none, []⟩ else
    let pk := r.1
    match fopen w "/tmp/sphincs_sig.bin" with
    | none => ⟨1, ["Cannot open sig\n"], none, []⟩
    | some f =>
      let r := fread sig P.SPX_BYTES f
      let sig := r.1
      let siglen := r.2
      match fopen w "/tmp/sphincs_msg.bin" with
      | none => ⟨1, ["Cannot open msg\n"], none, []⟩
      | some f =>
        let r := fread msg 256 f
        let msg := r.1
        let msglen := r.2
        let out :=
          ["SPHINCS+ reference (sphincs-shake-256s-robust) verifier:\n",
           "  PK size:  " ++ toString P.SPX_PK_BYTES ++ " bytes\n",
           "  Sig size: " ++ toString siglen ++ " bytes (expected " ++
             toString P.SPX_BYTES ++ ")\n",
           "  Msg size: " ++ toString msglen ++ " bytes\n"]
        let a : VerifyArgs := ⟨sig, siglen, msg, msglen, pk⟩
        let ret := crypto_sign_verify a
        ⟨if ret ≠ 0 then 1 else 0,
         out ++ ["  Verification: " ++ (if ret = 0 then "PASSED" else "FAILED") ++ "\n"],
         some a, []⟩

/-- The program dilithium_sign_ref.c (the `fopen(..., "wb")` calls succeed). -/
def dilithium_sign_ref (P : LatticeParams) (w : World)
    (crypto_sign_keypair : List Byte → List Byte → KeypairOut)
    (crypto_sign_signature : List Byte → List Byte → Nat → List Byte → SignOut)
    (crypto_sign_verify : VerifyArgs → Int) : Run VerifyArgs :=
  let pk := uninit w "pk" P.CRYPTO_PUBLICKEYBYTES
  let sk := uninit w "sk" P.CRYPTO_SECRETKEYBYTES
  let sig := uninit w "sig" P.CRYPTO_BYTES
  let k := crypto_sign_keypair pk sk
  let pk := k.pk
  let sk := k.sk
  let msg := cstr "Dilithium cross-verification from pq-crystals"
  let msglen := strlen msg
  let s := crypto_sign_signature sig msg msglen sk
  let sig := s.sig
  let siglen := s.siglen
  let a : VerifyArgs := ⟨sig, siglen, msg, msglen, pk⟩
  let ret := crypto_sign_verify a
  if ret ≠ 0 then ⟨1, ["Self-verification failed!\n"], some a, []⟩ else
  ⟨0,
   ["pq-crystals Dilithium5 signer:\n",
    "  PK size:  " ++ toString P.CRYPTO_PUBLICKEYBYTES ++ " bytes\n",
    "  Sig size: " ++ toString siglen ++ " bytes\n",
    "  Self-verify: PASSED\n"],
   some a,
   [("/tmp/ref_dilithium_pk.bin", fwrite pk P.CRYPTO_PUBLICKEYBYTES),
    ("/tmp/ref_dilithium_sig.bin", fwrite sig siglen),
    ("/tmp/ref_dilithium_msg.bin", fwrite msg msglen)]⟩

/-- The program mldsa87_sign_ref.c (the `fopen(..., "wb")` calls succeed). -/
def mldsa87_sign_ref (P : LatticeParams) (w : World)
    (crypto_sign_keypair : List Byte → List Byte → KeypairOut)
    (crypto_sign_signature :
      List Byte → List Byte → Nat → List Byte → Nat → List Byte → SignOut)
    (crypto_sign_verify : CtxVerifyArgs → Int) : Run CtxVerifyArgs :=
  let pk := uninit w "pk" P.CRYPTO_PUBLICKEYBYTES
  let sk := uninit w "sk" P.CRYPTO_SECRETKEYBYTES
  let sig := uninit w "sig" P.CRYPTO_BYTES
  let k := crypto_sign_keypair pk sk
  let pk := k.pk
  let sk := k.sk
  let ctx := cstr "refctx"
  let ctxlen := strlen ctx
  let msg := cstr "ML-DSA-87 cross-verification from pq-crystals"
  let msglen := strlen msg
  let s := crypto_sign_signature sig msg msglen ctx ctxlen sk
  let sig := s.sig
  let siglen := s.siglen
  let a : CtxVerifyArgs := ⟨sig, siglen, msg, msglen, ctx, ctxlen, pk⟩
  let ret := crypto_sign_verify a
  if ret ≠ 0 then ⟨1, ["Self-verification failed!\n"], some a, []⟩ else
  ⟨0,
   ["pq-crystals ML-DSA-87 signer:\n",
    "  PK size:  " ++ toString P.CRYPTO_PUBLICKEYBYTES ++ " bytes\n",
    "  Sig size: " ++ toString siglen ++ " bytes\n",
    "  Context:  " ++ "refctx" ++ "\n",
    "  Self-verify: PASSED\n"],
   some a,
   [("/tmp/ref_mldsa_pk.bin", fwrite pk P.CRYPTO_PUBLICKEYBYTES),
    ("/tmp/ref_mldsa_sig.bin", fwrite sig siglen),
    ("/tmp/ref_mldsa_msg.bin", fwrite msg msglen),
    ("/tmp/ref_mldsa_ctx.bin", fwrite ctx ctxlen)]⟩

/-- The program sphincs_sign_ref.c (the `fopen(..., "wb")` calls succeed). -/
def sphincs_sign_ref (P : SpxParams) (w : World)
    (crypto_sign_seed_keypair : List Byte → List Byte → List Byte → KeypairOut)
    (crypto_sign_signature : List Byte → List Byte → Nat → List Byte → SignOut)
    (crypto_sign_verify : VerifyArgs → Int) : Run VerifyArgs :=
  let pk := uninit w "pk" P.SPX_PK_BYTES
  let sk := uninit w "sk" P.SPX_SK_BYTES
  let seed := uninit w "seed" (3 * P.SPX_N)
  let sig := uninit w "sig" P.SPX_BYTES
  match fopen w "/tmp/sphincs_seed.bin" with
  | none => ⟨1, ["Cannot open seed\n"], none, []⟩
  | some f =>
    let r := fread seed (3 * P.SPX_N) f
    if r.2 ≠ 3 * P.SPX_N then ⟨1, ["Failed to read seed\n"], none, []⟩ else
    let seed := r.1
    let k := crypto_sign_seed_keypair pk sk seed
    let pk := k.pk
    let sk := k.sk
    if k.ret ≠ 0 then ⟨1, ["Key generation failed\n"], none, []⟩ else
    let msg := cstr "SPHINCS+ cross-implementation verification"
    let msglen := msg.length - 1
    let s := crypto_sign_signature sig msg msglen sk
    let sig := s.sig
    let siglen := s.siglen
    if s.ret ≠ 0 then ⟨1, ["Signing failed\n"], none, []⟩ else
    let written :=
      [("/tmp/ref_sphincs_pk.bin", fwrite pk P.SPX_PK_BYTES),
       ("/tmp/ref_sphincs_sig.bin", fwrite sig siglen),
       ("/tmp/ref_sphincs_msg.bin", fwrite msg msglen)]
    let out :=
      ["SPHINCS+ reference (sphincs-shake-256s-robust) signer:\n",
       "  PK size:  " ++ toString P.SPX_PK_BYTES ++ " bytes\n",
       "  SK size:  " ++ toString P.SPX_SK_BYTES ++ " bytes\n",
       "  Sig size: " ++ toString siglen ++ " bytes\n"]
    let a : VerifyArgs := ⟨sig, siglen, msg, msglen, pk⟩
    let ret := crypto_sign_verify a
    ⟨if ret ≠ 0 then 1 else 0,
     out ++ ["  Self-verify: " ++ (if ret = 0 then "PASSED" else "FAILED") ++ "\n"],
     some a, written⟩

/-! ## Concrete stores and parameter sets, for the runs evaluated below -/

/-- The store holding exactly the listed files. -/
def store (files : List (String × List Byte)) : String → Option (List Byte) :=
  fun path => files.lookup path

/-- A world with the listed files, zeroed fresh memory and a `malloc` that succeeds. -/
def worldOf (files : List (String × List Byte)) : World :=
  ⟨store files, fun _ _ => 0, fun _ => 0, fun _ => true⟩

/-- The files of the XMSS exchange. -/
def xmssFiles (pk sig msg : List Byte) : List (String × List Byte) :=
  [("/tmp/xmss_pk.bin", pk), ("/tmp/xmss_sig.bin", sig), ("/tmp/xmss_msg.bin", msg)]

/-- The message `test`. -/
def testMsg : List Byte := [0x74, 0x65, 0x73, 0x74]

/-- The sizes of ML-DSA-87 (pq-crystals, `DILITHIUM_MODE=5`); only the concrete runs use
them, every general statement holds for all sizes. -/
def mldsa87Sizes : LatticeParams := ⟨2592, 4896, 4627⟩

/-- The sizes of sphincs-shake-256s; only the concrete runs use them. -/
def shake256sSizes : SpxParams := ⟨32, 64, 128, 29792⟩

/-- The files of the ML-DSA-87 exchange, the context file left out. -/
def mldsaFilesNoCtx (pk sig msg : List Byte) : List (String × List Byte) :=
  [("/tmp/mldsa_pk.bin", pk), ("/tmp/mldsa_sig.bin", sig), ("/tmp/mldsa_msg.bin", msg)]

/-- A world for the SPHINCS+ producer: a seed of 96 bytes is stored. -/
def seedWorld : World := worldOf [("/tmp/sphincs_seed.bin", List.replicate 96 1)]

/-- A key generation that returns 0. -/
def keypairOk : List Byte → List Byte → List Byte → KeypairOut :=
  fun _ _ _ => ⟨List.replicate 64 2, List.replicate 128 3, 0⟩

/-- A signing call that returns 0 and a signature of full size. -/
def signOk : List Byte → List Byte → Nat → List Byte → SignOut :=
  fun _ _ _ _ => ⟨List.replicate 29792 4, 29792, 0⟩

/-- A verification that rejects, with the value -1 the references return. -/
def verifyRejects : VerifyArgs → Int := fun _ => -1

/-- The sizes of Dilithium5 (pq-crystals, `DILITHIUM_MODE=5`); only the concrete runs use
them, every general statement holds for all sizes. -/
def dilithium5Sizes : LatticeParams := ⟨2592, 4896, 4595⟩

/-- A key generation that fails: it returns -1 and leaves `pk` and `sk` as they were. -/
def keypairFails : List Byte → List Byte → KeypairOut :=
  fun pk sk => ⟨pk, sk, -1⟩

/-- A signing call that fails: it returns -1, leaves `sig` as it was and reports length 0. -/
def signFails : List Byte → List Byte → Nat → List Byte → SignOut :=
  fun sig _ _ _ => ⟨sig, 0, -1⟩

/-- A signing call with context that fails in the same way. -/
def ctxSignFails : List Byte → List Byte → Nat → List Byte → Nat → List Byte → SignOut :=
  fun sig _ _ _ _ _ => ⟨sig, 0, -1⟩

/-- The four bytes of a 32-bit number, most significant first: the layout the comment at
line 61 of xmss_verify_ref.c names for the OID. -/
def bigEndian32 (n : Nat) : List Byte :=
  [Fin.ofNat (n / 2 ^ 24), Fin.ofNat (n / 2 ^ 16), Fin.ofNat (n / 2 ^ 8), Fin.ofNat n]

/-- The exit convention of a run `r` whose verification call returns `v` of the state it
is made in: status 0 exactly when the call was made and returned 0, status 1 otherwise. -/
def ExitConvention {κ : Type} (r : Run κ) (v : κ → Int) : Prop :=
  (r.status = 0 ↔ ∃ a, r.call = some a ∧ v a = 0) ∧ (r.status ≠ 0 → r.status = 1)

/-! ## Facts about the primitives -/

theorem length_uninit (w : World) (name : String) (n : Nat) :
    (uninit w name n).length = n := by
  simp [uninit]

theorem length_foldl_set (l : List Nat) (g : Nat → Nat) (v : Nat → Byte) (d : List Byte) :
    (l.foldl (fun d i => d.set (g i) (v i)) d).length = d.length := by
  induction l generalizing d with
  | nil => rfl
  | cons a l ih => simp [List.foldl_cons, ih]

theorem length_memcpy (dst : List Byte) (off : Nat) (src : List Byte) (n : Nat) :
    (memcpy dst off src n).length = dst.length :=
  length_foldl_set (memcpyIdx off n) (fun j => j) (fun j => src.getD (j - off) 0) dst

theorem memcpy_succ (dst : List Byte) (off : Nat) (src : List Byte) (n : Nat) :
    memcpy dst off src (n + 1) = (memcpy dst off src n).set (off + n) (src.getD n 0) := by
  simp only [memcpy, memcpyIdx]
  rw [List.range_succ, List.map_append, List.foldl_append]
  simp

/-- The copy `memcpy(dst + off, src, n)` within the bounds of both buffers replaces
exactly the bytes `off .. off + n - 1` of `dst` by the first `n` bytes of `src`. -/
theorem memcpy_eq (dst : List Byte) (off : Nat) (src : List Byte) (n : Nat)
    (hd : off + n ≤ dst.length) (hs : n ≤ src.length) :
    memcpy dst off src n = dst.take off ++ src.take n ++ dst.drop (off + n) := by
  induction n with
  | zero => simp [memcpy, memcpyIdx]
  | succ n ih =>
    rw [memcpy_succ, ih (by omega) (by omega)]
    have hn : n < src.length := by omega
    apply List.ext_getElem?
    intro i
    rw [List.getD_eq_getElem?_getD, List.getElem?_eq_getElem hn, Option.getD_some]
    simp only [List.getElem?_set, List.getElem?_append, List.length_append, List.length_take,
      List.length_set, List.getElem?_take, List.getElem?_drop]
    have hmin : min off dst.length = off := by omega
    have hmin1 : min n src.length = n := by omega
    have hmin2 : min (n + 1) src.length = n + 1 := by omega
    simp only [hmin, hmin1, hmin2]
    by_cases e : off + n = i
    · subst e
      have h0 : ¬ (off + n < off) := by omega
      simp [h0, hd, List.getElem?_eq_getElem hn]
      omega
    · rw [if_neg e]
      by_cases c1 : i < off
      · have c3 : i < off + n := by omega
        have c4 : i < off + (n + 1) := by omega
        simp [c1, c3, c4]
      · by_cases c2 : i < off + n
        · have c4 : i < off + (n + 1) := by omega
          have c5 : i - off < n := by omega
          have c6 : i - off < n + 1 := by omega
          simp [c1, c2, c4, c5, c6]
        · have c4 : ¬ i < off + (n + 1) := by omega
          simp only [c1, c2, c4, if_false]
          congr 1
          omega

theorem length_fread (buf : List Byte) (n : Nat) (f : List Byte) (h : n ≤ buf.length) :
    (fread buf n f).1.length = buf.length := by
  simp only [fread, List.length_append, List.length_take, List.length_drop]
  omega

theorem take_fread (buf : List Byte) (n : Nat) (f : List Byte) :
    (fread buf n f).1.take (fread buf n f).2 = f.take n := by
  simp only [fread]
  rw [List.take_append_of_le_length (by simp)]
  rw [List.take_take]
  rcases Nat.le_total n f.length with h | h
  · simp [Nat.min_eq_left h]
  · simp [Nat.min_eq_right h, List.take_of_length_le h]
    exact h

theorem take_four_of_set (b : List Byte) (x0 x1 x2 x3 : Byte) (h : 4 ≤ b.length) :
    ((((b.set 0 x0).set 1 x1).set 2 x2).set 3 x3).take 4 = [x0, x1, x2, x3] := by
  match b, h with
  | _ :: _ :: _ :: _ :: _, _ => simp

/-- The reference key built at lines 62-66 of xmss_verify_ref.c. -/
theorem xmss_ref_pk_eq (b g : List Byte) (hb : b.length = 68) (hg : 64 ≤ g.length) :
    memcpy ((((b.set 0 0x00).set 1 0x00).set 2 0x00).set 3 0x01) 4 g 64
      = [0x00, 0x00, 0x00, 0x01] ++ g.take 64 := by
  rw [memcpy_eq _ _ _ _ (by simp [hb]) hg, take_four_of_set _ _ _ _ _ (by omega)]
  rw [List.drop_of_length_le (by simp [hb])]
  simp

/-- The signed message built at lines 75-78 of xmss_verify_ref.c. -/
theorem xmss_sm_eq (sm sig msg : List Byte) (siglen msglen : Nat)
    (h : sm.length = siglen + msglen) (hs : siglen ≤ sig.length) (hm : msglen ≤ msg.length) :
    memcpy (memcpy sm 0 sig siglen) siglen msg msglen = sig.take siglen ++ msg.take msglen := by
  rw [memcpy_eq _ _ _ _ (by rw [length_memcpy]; omega) hm,
    memcpy_eq _ _ _ _ (by omega) hs]
  have h1 : (sig.take siglen).length = siglen := by simp; omega
  have h2 : (msg.take msglen).length = msglen := by simp; omega
  apply List.ext_getElem
  · simp; omega
  · intro i hi1 hi2
    simp only [List.length_append, h1, h2] at hi2
    by_cases c : i < siglen
    · simp [List.getElem_append, List.getElem_take, c, h1]
    · have c2 : i - siglen < msglen := by omega
      simp [List.getElem_append, List.getElem_take, c, c2, h1, h2]

/-! ## Runs of xmss_verify_ref.c -/

/-- With the three files present, 64 bytes of key available and memory for `sm`, the XMSS
consumer reaches `xmss_sign_open`, in the state described. -/
theorem xmss_reaches_call (w : World) (o : XmssArgs → Int) (p s m : List Byte)
    (hp : w.blobs "/tmp/xmss_pk.bin" = some p) (h64 : 64 ≤ p.length)
    (hs : w.blobs "/tmp/xmss_sig.bin" = some s)
    (hm : w.blobs "/tmp/xmss_msg.bin" = some m)
    (hmal : w.mallocOk (min REF_SIG_BYTES s.length + min 256 m.length) = true) :
    ∃ l, (xmss_verify_ref w o).call = some l
      ∧ (xmss_verify_ref w o).status = (if o l.args ≠ 0 then 1 else 0)
      ∧ l.ref_pk = [0x00, 0x00, 0x00, 0x01] ++ p.take 64
      ∧ l.siglen = min REF_SIG_BYTES s.length
      ∧ l.msglen = min 256 m.length
      ∧ l.sig.take l.siglen = s.take REF_SIG_BYTES
      ∧ l.msg.take l.msglen = m.take 256
      ∧ l.sm = s.take REF_SIG_BYTES ++ m.take 256
      ∧ l.smStores = memcpyIdx 0 l.siglen ++ memcpyIdx l.siglen l.msglen
      ∧ l.msg_out.length = 256 + REF_SIG_BYTES := by
  have hmin : min 64 p.length = 64 := Nat.min_eq_left h64
  have hr : (fread (uninit w "goqrllib_pk" 64) 64 p).2 = 64 := by simp [fread, hmin]
  have hmal2 : malloc w (min REF_SIG_BYTES s.length + min 256 m.length)
      = some ((List.range (min REF_SIG_BYTES s.length + min 256 m.length)).map w.heapJunk) := by
    simp [malloc, hmal]
  have hsig2 : (fread (uninit w "sig" REF_SIG_BYTES) REF_SIG_BYTES s).2
      = min REF_SIG_BYTES s.length := rfl
  have hmsg2 : (fread (uninit w "msg" 256) 256 m).2 = min 256 m.length := rfl
  simp only [xmss_verify_ref, fopen, hp, hs, hm, hr, hsig2, hmsg2, hmal2, ne_eq,
    not_true_eq_false, if_false]
  refine ⟨_, rfl, rfl, ?_, rfl, rfl, ?_, ?_, ?_, rfl, ?_⟩
  · have h1 : (fread (uninit w "goqrllib_pk" 64) 64 p).1.take 64 = p.take 64 := by
      have := take_fread (uninit w "goqrllib_pk" 64) 64 p
      rwa [hr] at this
    rw [xmss_ref_pk_eq _ _ (by rw [length_uninit]; rfl)
      (by rw [length_fread _ _ _ (by rw [length_uninit]), length_uninit]), h1]
  · exact take_fread _ _ _
  · exact take_fread _ _ _
  · show memcpy (memcpy _ 0 _ _) _ _ _ = _
    rw [xmss_sm_eq _ _ _ _ _ (by simp)
      (by rw [length_fread _ _ _ (by rw [length_uninit]), length_uninit]
          exact Nat.min_le_left _ _)
      (by rw [length_fread _ _ _ (by rw [length_uninit]), length_uninit]
          exact Nat.min_le_left _ _)]
    have e1 := take_fread (uninit w "sig" REF_SIG_BYTES) REF_SIG_BYTES s
    have e2 := take_fread (uninit w "msg" 256) 256 m
    rw [hsig2] at e1
    rw [hmsg2] at e2
    rw [e1, e2]
  · simp only [length_uninit]

theorem xmss_no_pk (w : World) (o : XmssArgs → Int)
    (hp : w.blobs "/tmp/xmss_pk.bin" = none) :
    xmss_verify_ref w o = ⟨1, ["Cannot open pk\n"], none, []⟩ := by
  simp only [xmss_verify_ref, fopen, hp]

theorem xmss_short_pk (w : World) (o : XmssArgs → Int) (p : List Byte)
    (hp : w.blobs "/tmp/xmss_pk.bin" = some p) (h : p.length < 64) :
    xmss_verify_ref w o = ⟨1, ["Failed to read pk\n"], none, []⟩ := by
  have hr : (fread (uninit w "goqrllib_pk" 64) 64 p).2 ≠ 64 := by
    simp only [fread]; omega
  simp only [xmss_verify_ref, fopen, hp, hr, ne_eq, not_false_eq_true, if_true]

theorem xmss_no_sig (w : World) (o : XmssArgs → Int) (p : List Byte)
    (hp : w.blobs "/tmp/xmss_pk.bin" = some p) (h : 64 ≤ p.length)
    (hs : w.blobs "/tmp/xmss_sig.bin" = none) :
    xmss_verify_ref w o = ⟨1, ["Cannot open sig\n"], none, []⟩ := by
  have hr : (fread (uninit w "goqrllib_pk" 64) 64 p).2 = 64 := by
    simp only [fread]; omega
  simp only [xmss_verify_ref, fopen, hp, hs, hr, ne_eq, not_true_eq_false, if_false]

theorem xmss_no_msg (w : World) (o : XmssArgs → Int) (p s : List Byte)
    (hp : w.blobs "/tmp/xmss_pk.bin" = some p) (h : 64 ≤ p.length)
    (hs : w.blobs "/tmp/xmss_sig.bin" = some s)
    (hm : w.blobs "/tmp/xmss_msg.bin" = none) :
    xmss_verify_ref w o = ⟨1, ["Cannot open msg\n"], none, []⟩ := by
  have hr : (fread (uninit w "goqrllib_pk" 64) 64 p).2 = 64 := by
    simp only [fread]; omega
  simp only [xmss_verify_ref, fopen, hp, hs, hm, hr, ne_eq, not_true_eq_false, if_false]

theorem xmss_no_memory (w : World) (o : XmssArgs → Int) (p s m : List Byte)
    (hp : w.blobs "/tmp/xmss_pk.bin" = some p) (h : 64 ≤ p.length)
    (hs : w.blobs "/tmp/xmss_sig.bin" = some s)
    (hm : w.blobs "/tmp/xmss_msg.bin" = some m)
    (hmal : w.mallocOk (min REF_SIG_BYTES s.length + min 256 m.length) = false) :
    (xmss_verify_ref w o).status = 1 ∧ (xmss_verify_ref w o).call = none
      ∧ (xmss_verify_ref w o).out.head?
          = some "XMSS reference (XMSS-SHA2_10_256) verifier:\n" := by
  have hr : (fread (uninit w "goqrllib_pk" 64) 64 p).2 = 64 := by
    simp only [fread]; omega
  have hmal2 : malloc w (min REF_SIG_BYTES s.length + min 256 m.length) = none := by
    simp [malloc, hmal]
  have hsig2 : (fread (uninit w "sig" REF_SIG_BYTES) REF_SIG_BYTES s).2
      = min REF_SIG_BYTES s.length := rfl
  have hmsg2 : (fread (uninit w "msg" 256) 256 m).2 = min 256 m.length := rfl
  simp only [xmss_verify_ref, fopen, hp, hs, hm, hr, hsig2, hmsg2, hmal2, ne_eq,
    not_true_eq_false, if_false]
  simp

/-- Every run of the XMSS consumer that reaches `xmss_sign_open` found the three files,
64 bytes of key and memory for `sm`. -/
theorem xmss_call_inv (w : World) (o : XmssArgs → Int) (l : XmssLocals)
    (h : (xmss_verify_ref w o).call = some l) :
    ∃ p s m, w.blobs "/tmp/xmss_pk.bin" = some p ∧ 64 ≤ p.length
      ∧ w.blobs "/tmp/xmss_sig.bin" = some s ∧ w.blobs "/tmp/xmss_msg.bin" = some m
      ∧ w.mallocOk (min REF_SIG_BYTES s.length + min 256 m.length) = true := by
  cases hp : w.blobs "/tmp/xmss_pk.bin" with
  | none => rw [xmss_no_pk w o hp] at h; simp at h
  | some p =>
    by_cases h64 : 64 ≤ p.length
    · cases hs : w.blobs "/tmp/xmss_sig.bin" with
      | none => rw [xmss_no_sig w o p hp h64 hs] at h; simp at h
      | some s =>
        cases hm : w.blobs "/tmp/xmss_msg.bin" with
        | none => rw [xmss_no_msg w o p s hp h64 hs hm] at h; simp at h
        | some m =>
          cases hmal : w.mallocOk (min REF_SIG_BYTES s.length + min 256 m.length) with
          | false =>
            rw [(xmss_no_memory w o p s m hp h64 hs hm hmal).2.1] at h
            simp at h
          | true => exact ⟨p, s, m, rfl, h64, rfl, rfl, hmal⟩
    · rw [xmss_short_pk w o p hp (by omega)] at h; simp at h

theorem fread_full (buf : List Byte) (n : Nat) (f : List Byte) (hb : buf.length = n)
    (hf : n ≤ f.length) : (fread buf n f).1 = f.take n := by
  simp only [fread, Nat.min_eq_left hf]
  rw [List.drop_of_length_le (by omega)]
  simp

theorem fread_count (buf : List Byte) (n : Nat) (f : List Byte) :
    (fread buf n f).2 = min n f.length := rfl

/-! ## Runs of dilithium_verify_ref.c -/

theorem dilithium_no_pk (P : LatticeParams) (w : World) (o : VerifyArgs → Int)
    (hp : w.blobs "/tmp/dilithium_pk.bin" = none) :
    dilithium_verify_ref P w o = ⟨1, ["Cannot open pk\n"], none, []⟩ := by
  simp only [dilithium_verify_ref, fopen, hp]

theorem dilithium_short_pk (P : LatticeParams) (w : World) (o : VerifyArgs → Int) (p : List Byte)
    (hp : w.blobs "/tmp/dilithium_pk.bin" = some p) (h : p.length < P.CRYPTO_PUBLICKEYBYTES) :
    dilithium_verify_ref P w o = ⟨1, ["Failed to read pk\n"], none, []⟩ := by
  have hr : (fread (uninit w "pk" P.CRYPTO_PUBLICKEYBYTES) P.CRYPTO_PUBLICKEYBYTES p).2
      ≠ P.CRYPTO_PUBLICKEYBYTES := by
    simp only [fread]; omega
  simp only [dilithium_verify_ref, fopen, hp, hr, ne_eq, not_false_eq_true, if_true]

theorem dilithium_no_sig (P : LatticeParams) (w : World) (o : VerifyArgs → Int) (p : List Byte)
    (hp : w.blobs "/tmp/dilithium_pk.bin" = some p) (h : P.CRYPTO_PUBLICKEYBYTES ≤ p.length)
    (hs : w.blobs "/tmp/dilithium_sig.bin" = none) :
    dilithium_verify_ref P w o = ⟨1, ["Cannot open sig\n"], none, []⟩ := by
  have hr : (fread (uninit w "pk" P.CRYPTO_PUBLICKEYBYTES) P.CRYPTO_PUBLICKEYBYTES p).2
      = P.CRYPTO_PUBLICKEYBYTES := by
    simp only [fread]; omega
  simp only [dilithium_verify_ref, fopen, hp, hs, hr, ne_eq, not_true_eq_false, if_false]

theorem dilithium_no_msg (P : LatticeParams) (w : World) (o : VerifyArgs → Int) (p s : List Byte)
    (hp : w.blobs "/tmp/dilithium_pk.bin" = some p) (h : P.CRYPTO_PUBLICKEYBYTES ≤ p.length)
    (hs : w.blobs "/tmp/dilithium_sig.bin" = some s)
    (hm : w.blobs "/tmp/dilithium_msg.bin" = none) :
    dilithium_verify_ref P w o = ⟨1, ["Cannot open msg\n"], none, []⟩ := by
  have hr : (fread (uninit w "pk" P.CRYPTO_PUBLICKEYBYTES) P.CRYPTO_PUBLICKEYBYTES p).2
      = P.CRYPTO_PUBLICKEYBYTES := by
    simp only [fread]; omega
  simp only [dilithium_verify_ref, fopen, hp, hs, hm, hr, ne_eq, not_true_eq_false, if_false]

/-- With the three files present and a whole key available, the Dilithium consumer reaches
`crypto_sign_verify`, with the arguments described. -/
theorem dilithium_reaches_call (P : LatticeParams) (w : World) (o : VerifyArgs → Int)
    (p s m : List Byte)
    (hp : w.blobs "/tmp/dilithium_pk.bin" = some p) (h : P.CRYPTO_PUBLICKEYBYTES ≤ p.length)
    (hs : w.blobs "/tmp/dilithium_sig.bin" = some s)
    (hm : w.blobs "/tmp/dilithium_msg.bin" = some m) :
    ∃ a, (dilithium_verify_ref P w o).call = some a
      ∧ (dilithium_verify_ref P w o).status = (if o a ≠ 0 then 1 else 0)
      ∧ (dilithium_verify_ref P w o).out.head? = some "pq-crystals Dilithium5 verifier:\n"
      ∧ a.pk = p.take P.CRYPTO_PUBLICKEYBYTES
      ∧ a.siglen = min P.CRYPTO_BYTES s.length
      ∧ a.signature = s.take P.CRYPTO_BYTES
      ∧ a.msglen = min 256 m.length
      ∧ a.msg.take a.msglen = m.take 256 := by
  have hr : (fread (uninit w "pk" P.CRYPTO_PUBLICKEYBYTES) P.CRYPTO_PUBLICKEYBYTES p).2
      = P.CRYPTO_PUBLICKEYBYTES := by
    simp only [fread]; omega
  simp only [dilithium_verify_ref, fopen, hp, hs, hm, hr, ne_eq, not_true_eq_false, if_false]
  refine ⟨_, rfl, rfl, ?_, ?_, rfl, ?_, rfl, ?_⟩
  · simp
  · exact fread_full _ _ _ (length_uninit _ _ _) h
  · exact take_fread _ _ _
  · exact take_fread _ _ _

/-- Every run of the Dilithium consumer that reaches `crypto_sign_verify` found the three
files and a whole key. -/
theorem dilithium_call_inv (P : LatticeParams) (w : World) (o : VerifyArgs → Int) (a : VerifyArgs)
    (h : (dilithium_verify_ref P w o).call = some a) :
    ∃ p s m, w.blobs "/tmp/dilithium_pk.bin" = some p ∧ P.CRYPTO_PUBLICKEYBYTES ≤ p.length
      ∧ w.blobs "/tmp/dilithium_sig.bin" = some s
      ∧ w.blobs "/tmp/dilithium_msg.bin" = some m := by
  cases hp : w.blobs "/tmp/dilithium_pk.bin" with
  | none => rw [dilithium_no_pk P w o hp] at h; simp at h
  | some p =>
    by_cases hN : P.CRYPTO_PUBLICKEYBYTES ≤ p.length
    · cases hs : w.blobs "/tmp/dilithium_sig.bin" with
      | none => rw [dilithium_no_sig P w o p hp hN hs] at h; simp at h
      | some s =>
        cases hm : w.blobs "/tmp/dilithium_msg.bin" with
        | none => rw [dilithium_no_msg P w o p s hp hN hs hm] at h; simp at h
        | some m => exact ⟨p, s, m, rfl, hN, rfl, rfl⟩
    · rw [dilithium_short_pk P w o p hp (by omega)] at h; simp at h

/-! ## Runs of sphincs_verify_ref.c -/

theorem sphincs_no_pk (P : SpxParams) (w : World) (o : VerifyArgs → Int)
    (hp : w.blobs "/tmp/sphincs_pk.bin" = none) :
    sphincs_verify_ref P w o = ⟨1, ["Cannot open pk\n"], none, []⟩ := by
  simp only [sphincs_verify_ref, fopen, hp]

theorem sphincs_short_pk (P : SpxParams) (w : World) (o : VerifyArgs → Int) (p : List Byte)
    (hp : w.blobs "/tmp/sphincs_pk.bin" = some p) (h : p.length < P.SPX_PK_BYTES) :
    sphincs_verify_ref P w o = ⟨1, ["Failed to read pk\n"], none, []⟩ := by
  have hr : (fread (uninit w "pk" P.SPX_PK_BYTES) P.SPX_PK_BYTES p).2 ≠ P.SPX_PK_BYTES := by
    simp only [fread]; omega
  simp only [sphincs_verify_ref, fopen, hp, hr, ne_eq, not_false_eq_true, if_true]

theorem sphincs_no_sig (P : SpxParams) (w : World) (o : VerifyArgs → Int) (p : List Byte)
    (hp : w.blobs "/tmp/sphincs_pk.bin" = some p) (h : P.SPX_PK_BYTES ≤ p.length)
    (hs : w.blobs "/tmp/sphincs_sig.bin" = none) :
    sphincs_verify_ref P w o = ⟨1, ["Cannot open sig\n"], none, []⟩ := by
  have hr : (fread (uninit w "pk" P.SPX_PK_BYTES) P.SPX_PK_BYTES p).2 = P.SPX_PK_BYTES := by
    simp only [fread]; omega
  simp only [sphincs_verify_ref, fopen, hp, hs, hr, ne_eq, not_true_eq_false, if_false]

theorem sphincs_no_msg (P : SpxParams) (w : World) (o : VerifyArgs → Int) (p s : List Byte)
    (hp : w.blobs "/tmp/sphincs_pk.bin" = some p) (h : P.SPX_PK_BYTES ≤ p.length)
    (hs : w.blobs "/tmp/sphincs_sig.bin" = some s)
    (hm : w.blobs "/tmp/sphincs_msg.bin" = none) :
    sphincs_verify_ref P w o = ⟨1, ["Cannot open msg\n"], none, []⟩ := by
  have hr : (fread (uninit w "pk" P.SPX_PK_BYTES) P.SPX_PK_BYTES p).2 = P.SPX_PK_BYTES := by
    simp only [fread]; omega
  simp only [sphincs_verify_ref, fopen, hp, hs, hm, hr, ne_eq, not_true_eq_false, if_false]

/-- With the three files present and a whole key available, the SPHINCS+ consumer reaches
`crypto_sign_verify`, with the arguments described. -/
theorem sphincs_reaches_call (P : SpxParams) (w : World) (o : VerifyArgs → Int)
    (p s m : List Byte)
    (hp : w.blobs "/tmp/sphincs_pk.bin" = some p) (h : P.SPX_PK_BYTES ≤ p.length)
    (hs : w.blobs "/tmp/sphincs_sig.bin" = some s)
    (hm : w.blobs "/tmp/sphincs_msg.bin" = some m) :
    ∃ a, (sphincs_verify_ref P w o).call = some a
      ∧ (sphincs_verify_ref P w o).status = (if o a ≠ 0 then 1 else 0)
      ∧ (sphincs_verify_ref P w o).out.head?
          = some "SPHINCS+ reference (sphincs-shake-256s-robust) verifier:\n"
      ∧ a.pk = p.take P.SPX_PK_BYTES
      ∧ a.siglen = min P.SPX_BYTES s.length
      ∧ a.signature = s.take P.SPX_BYTES
      ∧ a.msglen = min 256 m.length
      ∧ a.msg.take a.msglen = m.take 256 := by
  have hr : (fread (uninit w "pk" P.SPX_PK_BYTES) P.SPX_PK_BYTES p).2 = P.SPX_PK_BYTES := by
    simp only [fread]; omega
  simp only [sphincs_verify_ref, fopen, hp, hs, hm, hr, ne_eq, not_true_eq_false, if_false]
  refine ⟨_, rfl, rfl, ?_, ?_, rfl, ?_, rfl, ?_⟩
  · simp
  · exact fread_full _ _ _ (length_uninit _ _ _) h
  · exact take_fread _ _ _
  · exact take_fread _ _ _

/-- Every run of the SPHINCS+ consumer that reaches `crypto_sign_verify` found the three
files and a whole key. -/
theorem sphincs_call_inv (P : SpxParams) (w : World) (o : VerifyArgs → Int) (a : VerifyArgs)
    (h : (sphincs_verify_ref P w o).call = some a) :
    ∃ p s m, w.blobs "/tmp/sphincs_pk.bin" = some p ∧ P.SPX_PK_BYTES ≤ p.length
      ∧ w.blobs "/tmp/sphincs_sig.bin" = some s ∧ w.blobs "/tmp/sphincs_msg.bin" = some m := by
  cases hp : w.blobs "/tmp/sphincs_pk.bin" with
  | none => rw [sphincs_no_pk P w o hp] at h; simp at h
  | some p =>
    by_cases hN : P.SPX_PK_BYTES ≤ p.length
    · cases hs : w.blobs "/tmp/sphincs_sig.bin" with
      | none => rw [sphincs_no_sig P w o p hp hN hs] at h; simp at h
      | some s =>
        cases hm : w.blobs "/tmp/sphincs_msg.bin" with
        | none => rw [sphincs_no_msg P w o p s hp hN hs hm] at h; simp at h
        | some m => exact ⟨p, s, m, rfl, hN, rfl, rfl⟩
    · rw [sphincs_short_pk P w o p hp (by omega)] at h; simp at h

/-! ## Runs of mldsa87_verify_ref.c -/

theorem mldsa87_no_pk (P : LatticeParams) (w : World) (o : CtxVerifyArgs → Int)
    (hp : w.blobs "/tmp/mldsa_pk.bin" = none) :
    mldsa87_verify_ref P w o = ⟨1, ["Cannot open pk\n"], none, []⟩ := by
  simp only [mldsa87_verify_ref, fopen, hp]

theorem mldsa87_short_pk (P : LatticeParams) (w : World) (o : CtxVerifyArgs → Int)
    (p : List Byte)
    (hp : w.blobs "/tmp/mldsa_pk.bin" = some p) (h : p.length < P.CRYPTO_PUBLICKEYBYTES) :
    mldsa87_verify_ref P w o = ⟨1, ["Failed to read pk\n"], none, []⟩ := by
  have hr : (fread (uninit w "pk" P.CRYPTO_PUBLICKEYBYTES) P.CRYPTO_PUBLICKEYBYTES p).2
      ≠ P.CRYPTO_PUBLICKEYBYTES := by
    simp only [fread]; omega
  simp only [mldsa87_verify_ref, fopen, hp, hr, ne_eq, not_false_eq_true, if_true]

theorem mldsa87_no_sig (P : LatticeParams) (w : World) (o : CtxVerifyArgs → Int)
    (p : List Byte)
    (hp : w.blobs "/tmp/mldsa_pk.bin" = some p) (h : P.CRYPTO_PUBLICKEYBYTES ≤ p.length)
    (hs : w.blobs "/tmp/mldsa_sig.bin" = none) :
    mldsa87_verify_ref P w o = ⟨1, ["Cannot open sig\n"], none, []⟩ := by
  have hr : (fread (uninit w "pk" P.CRYPTO_PUBLICKEYBYTES) P.CRYPTO_PUBLICKEYBYTES p).2
      = P.CRYPTO_PUBLICKEYBYTES := by
    simp only [fread]; omega
  simp only [mldsa87_verify_ref, fopen, hp, hs, hr, ne_eq, not_true_eq_false, if_false]

theorem mldsa87_no_msg (P : LatticeParams) (w : World) (o : CtxVerifyArgs → Int)
    (p s : List Byte)
    (hp : w.blobs "/tmp/mldsa_pk.bin" = some p) (h : P.CRYPTO_PUBLICKEYBYTES ≤ p.length)
    (hs : w.blobs "/tmp/mldsa_sig.bin" = some s)
    (hm : w.blobs "/tmp/mldsa_msg.bin" = none) :
    mldsa87_verify_ref P w o = ⟨1, ["Cannot open msg\n"], none, []⟩ := by
  have hr : (fread (uninit w "pk" P.CRYPTO_PUBLICKEYBYTES) P.CRYPTO_PUBLICKEYBYTES p).2
      = P.CRYPTO_PUBLICKEYBYTES := by
    simp only [fread]; omega
  simp only [mldsa87_verify_ref, fopen, hp, hs, hm, hr, ne_eq, not_true_eq_false, if_false]

theorem mldsa87_no_ctx (P : LatticeParams) (w : World) (o : CtxVerifyArgs → Int)
    (p s m : List Byte)
    (hp : w.blobs "/tmp/mldsa_pk.bin" = some p) (h : P.CRYPTO_PUBLICKEYBYTES ≤ p.length)
    (hs : w.blobs "/tmp/mldsa_sig.bin" = some s)
    (hm : w.blobs "/tmp/mldsa_msg.bin" = some m)
    (hc : w.blobs "/tmp/mldsa_ctx.bin" = none) :
    mldsa87_verify_ref P w o = ⟨1, ["Cannot open ctx\n"], none, []⟩ := by
  have hr : (fread (uninit w "pk" P.CRYPTO_PUBLICKEYBYTES) P.CRYPTO_PUBLICKEYBYTES p).2
      = P.CRYPTO_PUBLICKEYBYTES := by
    simp only [fread]; omega
  simp only [mldsa87_verify_ref, fopen, hp, hs, hm, hc, hr, ne_eq, not_true_eq_false,
    if_false]

/-- With the four files present and a whole key available, the ML-DSA-87 consumer reaches
`crypto_sign_verify`, with the arguments described. -/
theorem mldsa87_reaches_call (P : LatticeParams) (w : World) (o : CtxVerifyArgs → Int)
    (p s m c : List Byte)
    (hp : w.blobs "/tmp/mldsa_pk.bin" = some p) (h : P.CRYPTO_PUBLICKEYBYTES ≤ p.length)
    (hs : w.blobs "/tmp/mldsa_sig.bin" = some s)
    (hm : w.blobs "/tmp/mldsa_msg.bin" = some m)
    (hc : w.blobs "/tmp/mldsa_ctx.bin" = some c) :
    ∃ a, (mldsa87_verify_ref P w o).call = some a
      ∧ (mldsa87_verify_ref P w o).status = (if o a ≠ 0 then 1 else 0)
      ∧ (mldsa87_verify_ref P w o).out.head? = some "pq-crystals ML-DSA-87 verifier:\n"
      ∧ (mldsa87_verify_ref P w o).out.getLast? =
          some ("  Verification: " ++ (if o a = 0 then "PASSED" else "FAILED") ++ "\n")
      ∧ a.pk = p.take P.CRYPTO_PUBLICKEYBYTES
      ∧ a.siglen = min P.CRYPTO_BYTES s.length
      ∧ a.signature = s.take P.CRYPTO_BYTES
      ∧ a.msglen = min 256 m.length
      ∧ a.msg.take a.msglen = m.take 256
      ∧ a.ctxlen = min 256 c.length
      ∧ a.context = c.take 256 := by
  have hr : (fread (uninit w "pk" P.CRYPTO_PUBLICKEYBYTES) P.CRYPTO_PUBLICKEYBYTES p).2
      = P.CRYPTO_PUBLICKEYBYTES := by
    simp only [fread]; omega
  simp only [mldsa87_verify_ref, fopen, hp, hs, hm, hc, hr, ne_eq, not_true_eq_false,
    if_false]
  refine ⟨_, rfl, rfl, ?_, ?_, ?_, rfl, ?_, rfl, ?_, rfl, ?_⟩
  · simp
  · simp
  · exact fread_full _ _ _ (length_uninit _ _ _) h
  · exact take_fread _ _ _
  · exact take_fread _ _ _
  · exact take_fread _ _ _

/-- Every run of the ML-DSA-87 consumer that reaches `crypto_sign_verify` found the four
files and a whole key. -/
theorem mldsa87_call_inv (P : LatticeParams) (w : World) (o : CtxVerifyArgs → Int)
    (a : CtxVerifyArgs) (h : (mldsa87_verify_ref P w o).call = some a) :
    ∃ p s m c, w.blobs "/tmp/mldsa_pk.bin" = some p ∧ P.CRYPTO_PUBLICKEYBYTES ≤ p.length
      ∧ w.blobs "/tmp/mldsa_sig.bin" = some s ∧ w.blobs "/tmp/mldsa_msg.bin" = some m
      ∧ w.blobs "/tmp/mldsa_ctx.bin" = some c := by
  cases hp : w.blobs "/tmp/mldsa_pk.bin" with
  | none => rw [mldsa87_no_pk P w o hp] at h; simp at h
  | some p =>
    by_cases hN : P.CRYPTO_PUBLICKEYBYTES ≤ p.length
    · cases hs : w.blobs "/tmp/mldsa_sig.bin" with
      | none => rw [mldsa87_no_sig P w o p hp hN hs] at h; simp at h
      | some s =>
        cases hm : w.blobs "/tmp/mldsa_msg.bin" with
        | none => rw [mldsa87_no_msg P w o p s hp hN hs hm] at h; simp at h
        | some m =>
          cases hc : w.blobs "/tmp/mldsa_ctx.bin" with
          | none => rw [mldsa87_no_ctx P w o p s m hp hN hs hm hc] at h; simp at h
          | some c => exact ⟨p, s, m, c, rfl, hN, rfl, rfl, rfl⟩
    · rw [mldsa87_short_pk P w o p hp (by omega)] at h; simp at h

theorem xmss_call_out_head (w : World) (o : XmssArgs → Int) (l : XmssLocals)
    (h : (xmss_verify_ref w o).call = some l) :
    (xmss_verify_ref w o).out.head? = some "XMSS reference (XMSS-SHA2_10_256) verifier:\n" := by
  obtain ⟨p, s, m, hp, h64, hs, hm, hmal⟩ := xmss_call_inv w o l h
  have hr : (fread (uninit w "goqrllib_pk" 64) 64 p).2 = 64 := by
    simp only [fread]; omega
  have hmal2 : malloc w (min REF_SIG_BYTES s.length + min 256 m.length)
      = some ((List.range (min REF_SIG_BYTES s.length + min 256 m.length)).map w.heapJunk) := by
    simp [malloc, hmal]
  simp only [xmss_verify_ref, fopen, hp, hs, hm, hr, fread_count, hmal2, ne_eq,
    not_true_eq_false, if_false]
  simp

/-- The exit status of the Dilithium consumer, from whether and how the verification call went. -/
theorem dilithium_status (P : LatticeParams) (w : World) (o : VerifyArgs → Int) :
    ((dilithium_verify_ref P w o).call = none ∧ (dilithium_verify_ref P w o).status = 1)
    ∨ ∃ a, (dilithium_verify_ref P w o).call = some a
        ∧ (dilithium_verify_ref P w o).status = (if o a ≠ 0 then 1 else 0) := by
  cases hp : w.blobs "/tmp/dilithium_pk.bin" with
  | none => left; rw [dilithium_no_pk P w o hp]; exact ⟨rfl, rfl⟩
  | some p =>
    by_cases hN : P.CRYPTO_PUBLICKEYBYTES ≤ p.length
    · cases hs : w.blobs "/tmp/dilithium_sig.bin" with
      | none => left; rw [dilithium_no_sig P w o p hp hN hs]; exact ⟨rfl, rfl⟩
      | some s =>
        cases hm : w.blobs "/tmp/dilithium_msg.bin" with
        | none => left; rw [dilithium_no_msg P w o p s hp hN hs hm]; exact ⟨rfl, rfl⟩
        | some m =>
          right
          obtain ⟨a, h1, h2, -⟩ := dilithium_reaches_call P w o p s m hp hN hs hm
          exact ⟨a, h1, h2⟩
    · left; rw [dilithium_short_pk P w o p hp (by omega)]; exact ⟨rfl, rfl⟩

/-- The exit status of the SPHINCS+ consumer, from whether and how the verification call went. -/
theorem sphincs_status (P : SpxParams) (w : World) (o : VerifyArgs → Int) :
    ((sphincs_verify_ref P w o).call = none ∧ (sphincs_verify_ref P w o).status = 1)
    ∨ ∃ a, (sphincs_verify_ref P w o).call = some a
        ∧ (sphincs_verify_ref P w o).status = (if o a ≠ 0 then 1 else 0) := by
  cases hp : w.blobs "/tmp/sphincs_pk.bin" with
  | none => left; rw [sphincs_no_pk P w o hp]; exact ⟨rfl, rfl⟩
  | some p =>
    by_cases hN : P.SPX_PK_BYTES ≤ p.length
    · cases hs : w.blobs "/tmp/sphincs_sig.bin" with
      | none => left; rw [sphincs_no_sig P w o p hp hN hs]; exact ⟨rfl, rfl⟩
      | some s =>
        cases hm : w.blobs "/tmp/sphincs_msg.bin" with
        | none => left; rw [sphincs_no_msg P w o p s hp hN hs hm]; exact ⟨rfl, rfl⟩
        | some m =>
          right
          obtain ⟨a, h1, h2, -⟩ := sphincs_reaches_call P w o p s m hp hN hs hm
          exact ⟨a, h1, h2⟩
    · left; rw [sphincs_short_pk P w o p hp (by omega)]; exact ⟨rfl, rfl⟩

/-- The exit status of the ML-DSA-87 consumer, from whether and how the verification call went. -/
theorem mldsa87_status (P : LatticeParams) (w : World) (o : CtxVerifyArgs → Int) :
    ((mldsa87_verify_ref P w o).call = none ∧ (mldsa87_verify_ref P w o).status = 1)
    ∨ ∃ a, (mldsa87_verify_ref P w o).call = some a
        ∧ (mldsa87_verify_ref P w o).status = (if o a ≠ 0 then 1 else 0) := by
  cases hp : w.blobs "/tmp/mldsa_pk.bin" with
  | none => left; rw [mldsa87_no_pk P w o hp]; exact ⟨rfl, rfl⟩
  | some p =>
    by_cases hN : P.CRYPTO_PUBLICKEYBYTES ≤ p.length
    · cases hs : w.blobs "/tmp/mldsa_sig.bin" with
      | none => left; rw [mldsa87_no_sig P w o p hp hN hs]; exact ⟨rfl, rfl⟩
      | some s =>
        cases hm : w.blobs "/tmp/mldsa_msg.bin" with
        | none => left; rw [mldsa87_no_msg P w o p s hp hN hs hm]; exact ⟨rfl, rfl⟩
        | some m =>
          cases hc : w.blobs "/tmp/mldsa_ctx.bin" with
          | none => left; rw [mldsa87_no_ctx P w o p s m hp hN hs hm hc]; exact ⟨rfl, rfl⟩
          | some c =>
            right
            obtain ⟨a, h1, h2, -⟩ := mldsa87_reaches_call P w o p s m c hp hN hs hm hc
            exact ⟨a, h1, h2⟩
    · left; rw [mldsa87_short_pk P w o p hp (by omega)]; exact ⟨rfl, rfl⟩

/-- The exit status of the XMSS consumer, from whether and how the verification call went. -/
theorem xmss_status (w : World) (o : XmssArgs → Int) :
    ((xmss_verify_ref w o).call = none ∧ (xmss_verify_ref w o).status = 1)
    ∨ ∃ l, (xmss_verify_ref w o).call = some l
        ∧ (xmss_verify_ref w o).status = (if o l.args ≠ 0 then 1 else 0) := by
  cases hp : w.blobs "/tmp/xmss_pk.bin" with
  | none => left; rw [xmss_no_pk w o hp]; exact ⟨rfl, rfl⟩
  | some p =>
    by_cases h64 : 64 ≤ p.length
    · cases hs : w.blobs "/tmp/xmss_sig.bin" with
      | none => left; rw [xmss_no_sig w o p hp h64 hs]; exact ⟨rfl, rfl⟩
      | some s =>
        cases hm : w.blobs "/tmp/xmss_msg.bin" with
        | none => left; rw [xmss_no_msg w o p s hp h64 hs hm]; exact ⟨rfl, rfl⟩
        | some m =>
          cases hmal : w.mallocOk (min REF_SIG_BYTES s.length + min 256 m.length) with
          | false =>
            left
            have := xmss_no_memory w o p s m hp h64 hs hm hmal
            exact ⟨this.2.1, this.1⟩
          | true =>
            right
            obtain ⟨l, h1, h2, -⟩ := xmss_reaches_call w o p s m hp h64 hs hm hmal
            exact ⟨l, h1, h2⟩
    · left; rw [xmss_short_pk w o p hp (by omega)]; exact ⟨rfl, rfl⟩

/-- From the two ways a run can go to the exit convention: status 0 exactly when the
verification call was made and returned 0, and status 1 otherwise. -/
theorem convention_of_status {κ : Type} (r : Run κ) (v : κ → Int)
    (h : (r.call = none ∧ r.status = 1)
      ∨ ∃ a, r.call = some a ∧ r.status = (if v a ≠ 0 then 1 else 0)) :
    (r.status = 0 ↔ ∃ a, r.call = some a ∧ v a = 0) ∧ (r.status ≠ 0 → r.status = 1) := by
  rcases h with ⟨hc, hs⟩ | ⟨a, hc, hs⟩
  · refine ⟨⟨fun h0 => ?_, fun ⟨a, ha, _⟩ => ?_⟩, fun _ => hs⟩
    · rw [hs] at h0; exact absurd h0 (by decide)
    · rw [hc] at ha; exact absurd ha (by simp)
  · by_cases hv : v a = 0
    · have hs0 : r.status = 0 := by rw [hs]; simp [hv]
      exact ⟨⟨fun _ => ⟨a, hc, hv⟩, fun _ => hs0⟩, fun hne => absurd hs0 hne⟩
    · have hs1 : r.status = 1 := by rw [hs]; simp [hv]
      refine ⟨⟨fun h0 => ?_, fun ⟨b, hb, hvb⟩ => ?_⟩, fun _ => hs1⟩
      · rw [hs1] at h0; exact absurd h0 (by decide)
      · rw [hc] at hb
        cases hb
        exact absurd hvb hv

/-! ## Runs of the producers -/

theorem dilithium_sign_status (P : LatticeParams) (w : World)
    (kp : List Byte → List Byte → KeypairOut)
    (sg : List Byte → List Byte → Nat → List Byte → SignOut) (o : VerifyArgs → Int) :
    ∃ a, (dilithium_sign_ref P w kp sg o).call = some a
      ∧ (dilithium_sign_ref P w kp sg o).status = (if o a ≠ 0 then 1 else 0)
      ∧ (o a ≠ 0 → (dilithium_sign_ref P w kp sg o).written = []) := by
  simp only [dilithium_sign_ref]
  split_ifs with h
  · exact ⟨_, rfl, (if_pos h).symm, fun _ => rfl⟩
  · exact ⟨_, rfl, (if_neg h).symm, fun h2 => absurd h2 h⟩

theorem mldsa87_sign_status (P : LatticeParams) (w : World)
    (kp : List Byte → List Byte → KeypairOut)
    (sg : List Byte → List Byte → Nat → List Byte → Nat → List Byte → SignOut)
    (o : CtxVerifyArgs → Int) :
    ∃ a, (mldsa87_sign_ref P w kp sg o).call = some a
      ∧ (mldsa87_sign_ref P w kp sg o).status = (if o a ≠ 0 then 1 else 0)
      ∧ (o a ≠ 0 → (mldsa87_sign_ref P w kp sg o).written = []) := by
  simp only [mldsa87_sign_ref]
  split_ifs with h
  · exact ⟨_, rfl, (if_pos h).symm, fun _ => rfl⟩
  · exact ⟨_, rfl, (if_neg h).symm, fun h2 => absurd h2 h⟩

theorem sphincs_sign_status (P : SpxParams) (w : World)
    (kp : List Byte → List Byte → List Byte → KeypairOut)
    (sg : List Byte → List Byte → Nat → List Byte → SignOut) (o : VerifyArgs → Int) :
    ((sphincs_sign_ref P w kp sg o).call = none ∧ (sphincs_sign_ref P w kp sg o).status = 1)
    ∨ ∃ a, (sphincs_sign_ref P w kp sg o).call = some a
        ∧ (sphincs_sign_ref P w kp sg o).status = (if o a ≠ 0 then 1 else 0) := by
  cases hf : w.blobs "/tmp/sphincs_seed.bin" with
  | none => left; simp [sphincs_sign_ref, fopen, hf]
  | some f =>
    simp only [sphincs_sign_ref, fopen, hf]
    by_cases h1 : (fread (uninit w "seed" (3 * P.SPX_N)) (3 * P.SPX_N) f).2 ≠ 3 * P.SPX_N
    · rw [if_pos h1]; left; exact ⟨rfl, rfl⟩
    · rw [if_neg h1]
      by_cases h2 : (kp (uninit w "pk" P.SPX_PK_BYTES) (uninit w "sk" P.SPX_SK_BYTES)
          (fread (uninit w "seed" (3 * P.SPX_N)) (3 * P.SPX_N) f).1).ret ≠ 0
      · rw [if_pos h2]; left; exact ⟨rfl, rfl⟩
      · rw [if_neg h2]
        by_cases h3 : (sg (uninit w "sig" P.SPX_BYTES)
            (cstr "SPHINCS+ cross-implementation verification")
            ((cstr "SPHINCS+ cross-implementation verification").length - 1)
            (kp (uninit w "pk" P.SPX_PK_BYTES) (uninit w "sk" P.SPX_SK_BYTES)
              (fread (uninit w "seed" (3 * P.SPX_N)) (3 * P.SPX_N) f).1).sk).ret ≠ 0
        · rw [if_pos h3]; left; exact ⟨rfl, rfl⟩
        · rw [if_neg h3]; right; exact ⟨_, rfl, rfl⟩

/-- Once the seed is read and key generation and signing return 0, the SPHINCS+ producer
writes its three files, whatever the self-verification that follows returns. -/
theorem sphincs_sign_writes (P : SpxParams) (w : World)
    (kp : List Byte → List Byte → List Byte → KeypairOut)
    (sg : List Byte → List Byte → Nat → List Byte → SignOut) (o : VerifyArgs → Int)
    (f : List Byte) (hf : w.blobs "/tmp/sphincs_seed.bin" = some f)
    (hlen : 3 * P.SPX_N ≤ f.length)
    (hk : ∀ pk sk seed, (kp pk sk seed).ret = 0)
    (hsg : ∀ sig msg msglen sk, (sg sig msg msglen sk).ret = 0) :
    ∃ a, (sphincs_sign_ref P w kp sg o).call = some a
      ∧ (sphincs_sign_ref P w kp sg o).status = (if o a ≠ 0 then 1 else 0)
      ∧ (sphincs_sign_ref P w kp sg o).written.map Prod.fst =
          ["/tmp/ref_sphincs_pk.bin", "/tmp/ref_sphincs_sig.bin", "/tmp/ref_sphincs_msg.bin"]
      ∧ (sphincs_sign_ref P w kp sg o).written.map Prod.snd =
          [a.pk.take P.SPX_PK_BYTES, a.signature, a.msg.take a.msglen] := by
  have hr : (fread (uninit w "seed" (3 * P.SPX_N)) (3 * P.SPX_N) f).2 = 3 * P.SPX_N := by
    simp only [fread]; omega
  simp only [sphincs_sign_ref, fopen, hf, hr, hk, hsg, ne_eq, not_true_eq_false, if_false]
  exact ⟨_, rfl, rfl, rfl, rfl⟩

theorem mem_memcpyIdx (off n i : Nat) : i ∈ memcpyIdx off n ↔ off ≤ i ∧ i < off + n := by
  simp only [memcpyIdx, List.mem_map, List.mem_range]
  constructor
  · rintro ⟨j, hj, rfl⟩
    omega
  · intro h
    exact ⟨i - off, by omega, by omega⟩

/-- What the Dilithium consumer prints when the verification call rejects. -/
theorem dilithium_rejected_out (P : LatticeParams) (w : World) (o : VerifyArgs → Int)
    (a : VerifyArgs)
    (h : (dilithium_verify_ref P w o).call = some a) (ho : o a ≠ 0) :
    (dilithium_verify_ref P w o).out.head? = some "pq-crystals Dilithium5 verifier:\n"
      ∧ (dilithium_verify_ref P w o).out.getLast? = some "  Verification: FAILED\n" := by
  obtain ⟨p, s, m, hp, hN, hs, hm⟩ := dilithium_call_inv P w o a h
  have hr : (fread (uninit w "pk" P.CRYPTO_PUBLICKEYBYTES) P.CRYPTO_PUBLICKEYBYTES p).2
      = P.CRYPTO_PUBLICKEYBYTES := by
    simp only [fread]; omega
  simp only [dilithium_verify_ref, fopen, hp, hs, hm, hr, ne_eq, not_true_eq_false, if_false,
    Option.some.injEq] at h ⊢
  subst h
  refine ⟨by simp, ?_⟩
  rw [if_neg ho]
  simp

/-- What the SPHINCS+ consumer prints when the verification call rejects. -/
theorem sphincs_rejected_out (P : SpxParams) (w : World) (o : VerifyArgs → Int) (a : VerifyArgs)
    (h : (sphincs_verify_ref P w o).call = some a) (ho : o a ≠ 0) :
    (sphincs_verify_ref P w o).out.head?
        = some "SPHINCS+ reference (sphincs-shake-256s-robust) verifier:\n"
      ∧ (sphincs_verify_ref P w o).out.getLast? = some "  Verification: FAILED\n" := by
  obtain ⟨p, s, m, hp, hN, hs, hm⟩ := sphincs_call_inv P w o a h
  have hr : (fread (uninit w "pk" P.SPX_PK_BYTES) P.SPX_PK_BYTES p).2 = P.SPX_PK_BYTES := by
    simp only [fread]; omega
  simp only [sphincs_verify_ref, fopen, hp, hs, hm, hr, ne_eq, not_true_eq_false, if_false,
    Option.some.injEq] at h ⊢
  subst h
  refine ⟨by simp, ?_⟩
  rw [if_neg ho]
  simp

/-- What the ML-DSA-87 consumer prints when the verification call rejects. -/
theorem mldsa87_rejected_out (P : LatticeParams) (w : World) (o : CtxVerifyArgs → Int)
    (a : CtxVerifyArgs) (h : (mldsa87_verify_ref P w o).call = some a) (ho : o a ≠ 0) :
    (mldsa87_verify_ref P w o).out.head? = some "pq-crystals ML-DSA-87 verifier:\n"
      ∧ (mldsa87_verify_ref P w o).out.getLast? = some "  Verification: FAILED\n" := by
  obtain ⟨p, s, m, c, hp, hN, hs, hm, hc⟩ := mldsa87_call_inv P w o a h
  obtain ⟨a2, h1, -, h3, h4, -⟩ := mldsa87_reaches_call P w o p s m c hp hN hs hm hc
  rw [h] at h1
  cases h1
  rw [if_neg ho] at h4
  exact ⟨h3, h4⟩

/-- What the XMSS consumer prints when `xmss_sign_open` rejects. -/
theorem xmss_rejected_out (w : World) (o : XmssArgs → Int) (l : XmssLocals)
    (h : (xmss_verify_ref w o).call = some l) (ho : o l.args ≠ 0) :
    (xmss_verify_ref w o).out.head? = some "XMSS reference (XMSS-SHA2_10_256) verifier:\n"
      ∧ (xmss_verify_ref w o).out.getLast? = some "  Verification: FAILED\n" := by
  refine ⟨xmss_call_out_head w o l h, ?_⟩
  obtain ⟨p, s, m, hp, h64, hs, hm, hmal⟩ := xmss_call_inv w o l h
  have hr : (fread (uninit w "goqrllib_pk" 64) 64 p).2 = 64 := by
    simp only [fread]; omega
  have hmal2 : malloc w (min REF_SIG_BYTES s.length + min 256 m.length)
      = some ((List.range (min REF_SIG_BYTES s.length + min 256 m.length)).map w.heapJunk) := by
    simp [malloc, hmal]
  simp only [xmss_verify_ref, fopen, hp, hs, hm, hr, fread_count, hmal2, ne_eq,
    not_true_eq_false, if_false, Option.some.injEq] at h ⊢
  subst h
  rw [if_neg ho]
  simp

/-- Two outputs whose first pieces start with different characters are different texts. -/
theorem stdoutText_ne (o1 o2 : List String) (h1 h2 : String) (c1 c2 : Char)
    (e1 : o1.head? = some h1) (e2 : o2.head? = some h2)
    (f1 : h1.toList.head? = some c1) (f2 : h2.toList.head? = some c2) (ne : c1 ≠ c2) :
    stdoutText o1 ≠ stdoutText o2 := by
  have key : ∀ (o : List String) (h : String) (c : Char), o.head? = some h →
      h.toList.head? = some c → (stdoutText o).head? = some c := by
    intro o h c e f
    cases o with
    | nil => simp at e
    | cons x xs =>
      simp only [List.head?_cons, Option.some.injEq] at e
      subst e
      cases hx : x.toList with
      | nil => rw [hx] at f; simp at f
      | cons y ys =>
        rw [hx] at f
        simp only [List.head?_cons, Option.some.injEq] at f
        subst f
        simp only [stdoutText, List.map_cons, List.flatten_cons, hx, List.cons_append,
          List.head?_cons]
  intro heq
  have k1 := key o1 h1 c1 e1 f1
  have k2 := key o2 h2 c2 e2 f2
  rw [heq, k2] at k1
  exact ne (Option.some.inj k1).symm

/-- The Dilithium consumer with one of its files absent: one line of diagnostic, naming the
first file that could not be opened, or the key that came short before that. -/
theorem dilithium_absent (P : LatticeParams) (w : World) (o : VerifyArgs → Int)
    (h : w.blobs "/tmp/dilithium_pk.bin" = none ∨ w.blobs "/tmp/dilithium_sig.bin" = none
      ∨ w.blobs "/tmp/dilithium_msg.bin" = none) :
    ∃ d, dilithium_verify_ref P w o = ⟨1, [d], none, []⟩
      ∧ ((d = "Cannot open pk\n" ∧ w.blobs "/tmp/dilithium_pk.bin" = none)
        ∨ (d = "Failed to read pk\n"
            ∧ ∃ p, w.blobs "/tmp/dilithium_pk.bin" = some p ∧ p.length < P.CRYPTO_PUBLICKEYBYTES)
        ∨ (d = "Cannot open sig\n" ∧ w.blobs "/tmp/dilithium_sig.bin" = none
              ∧ (∃ p, w.blobs "/tmp/dilithium_pk.bin" = some p ∧ P.CRYPTO_PUBLICKEYBYTES ≤ p.length))
        ∨ (d = "Cannot open msg\n" ∧ w.blobs "/tmp/dilithium_msg.bin" = none
              ∧ (∃ p, w.blobs "/tmp/dilithium_pk.bin" = some p ∧ P.CRYPTO_PUBLICKEYBYTES ≤ p.length)
              ∧ w.blobs "/tmp/dilithium_sig.bin" ≠ none)) := by
  cases hp : w.blobs "/tmp/dilithium_pk.bin" with
  | none => exact ⟨_, dilithium_no_pk P w o hp, Or.inl ⟨rfl, rfl⟩⟩
  | some p =>
    by_cases hN : P.CRYPTO_PUBLICKEYBYTES ≤ p.length
    · cases hs : w.blobs "/tmp/dilithium_sig.bin" with
      | none => exact ⟨_, dilithium_no_sig P w o p hp hN hs, Or.inr (Or.inr (Or.inl ⟨rfl, rfl, p, rfl, hN⟩))⟩
      | some s =>
        cases hm : w.blobs "/tmp/dilithium_msg.bin" with
        | none =>
          exact ⟨_, dilithium_no_msg P w o p s hp hN hs hm, Or.inr (Or.inr (Or.inr ⟨rfl, rfl, ⟨p, rfl, hN⟩, Option.some_ne_none s⟩))⟩
        | some m =>
          rw [hp, hs, hm] at h
          simp at h
    · exact ⟨_, dilithium_short_pk P w o p hp (by omega),
        Or.inr (Or.inl ⟨rfl, p, rfl, by omega⟩)⟩

/-- The SPHINCS+ consumer with one of its files absent: one line of diagnostic, naming the
first file that could not be opened, or the key that came short before that. -/
theorem sphincs_absent (P : SpxParams) (w : World) (o : VerifyArgs → Int)
    (h : w.blobs "/tmp/sphincs_pk.bin" = none ∨ w.blobs "/tmp/sphincs_sig.bin" = none
      ∨ w.blobs "/tmp/sphincs_msg.bin" = none) :
    ∃ d, sphincs_verify_ref P w o = ⟨1, [d], none, []⟩
      ∧ ((d = "Cannot open pk\n" ∧ w.blobs "/tmp/sphincs_pk.bin" = none)
        ∨ (d = "Failed to read pk\n"
            ∧ ∃ p, w.blobs "/tmp/sphincs_pk.bin" = some p ∧ p.length < P.SPX_PK_BYTES)
        ∨ (d = "Cannot open sig\n" ∧ w.blobs "/tmp/sphincs_sig.bin" = none
              ∧ (∃ p, w.blobs "/tmp/sphincs_pk.bin" = some p ∧ P.SPX_PK_BYTES ≤ p.length))
        ∨ (d = "Cannot open msg\n" ∧ w.blobs "/tmp/sphincs_msg.bin" = none
              ∧ (∃ p, w.blobs "/tmp/sphincs_pk.bin" = some p ∧ P.SPX_PK_BYTES ≤ p.length)
              ∧ w.blobs "/tmp/sphincs_sig.bin" ≠ none)) := by
  cases hp : w.blobs "/tmp/sphincs_pk.bin" with
  | none => exact ⟨_, sphincs_no_pk P w o hp, Or.inl ⟨rfl, rfl⟩⟩
  | some p =>
    by_cases hN : P.SPX_PK_BYTES ≤ p.length
    · cases hs : w.blobs "/tmp/sphincs_sig.bin" with
      | none => exact ⟨_, sphincs_no_sig P w o p hp hN hs, Or.inr (Or.inr (Or.inl ⟨rfl, rfl, p, rfl, hN⟩))⟩
      | some s =>
        cases hm : w.blobs "/tmp/sphincs_msg.bin" with
        | none =>
          exact ⟨_, sphincs_no_msg P w o p s hp hN hs hm, Or.inr (Or.inr (Or.inr ⟨rfl, rfl, ⟨p, rfl, hN⟩, Option.some_ne_none s⟩))⟩
        | some m =>
          rw [hp, hs, hm] at h
          simp at h
    · exact ⟨_, sphincs_short_pk P w o p hp (by omega),
        Or.inr (Or.inl ⟨rfl, p, rfl, by omega⟩)⟩

/-- The ML-DSA-87 consumer with one of its files absent: one line of diagnostic, naming
the first file that could not be opened, or the key that came short before that. -/
theorem mldsa87_absent (P : LatticeParams) (w : World) (o : CtxVerifyArgs → Int)
    (h : w.blobs "/tmp/mldsa_pk.bin" = none ∨ w.blobs "/tmp/mldsa_sig.bin" = none
      ∨ w.blobs "/tmp/mldsa_msg.bin" = none ∨ w.blobs "/tmp/mldsa_ctx.bin" = none) :
    ∃ d, mldsa87_verify_ref P w o = ⟨1, [d], none, []⟩
      ∧ ((d = "Cannot open pk\n" ∧ w.blobs "/tmp/mldsa_pk.bin" = none)
        ∨ (d = "Failed to read pk\n"
            ∧ ∃ p, w.blobs "/tmp/mldsa_pk.bin" = some p ∧ p.length < P.CRYPTO_PUBLICKEYBYTES)
        ∨ (d = "Cannot open sig\n" ∧ w.blobs "/tmp/mldsa_sig.bin" = none
              ∧ (∃ p, w.blobs "/tmp/mldsa_pk.bin" = some p ∧ P.CRYPTO_PUBLICKEYBYTES ≤ p.length))
        ∨ (d = "Cannot open msg\n" ∧ w.blobs "/tmp/mldsa_msg.bin" = none
              ∧ (∃ p, w.blobs "/tmp/mldsa_pk.bin" = some p ∧ P.CRYPTO_PUBLICKEYBYTES ≤ p.length)
              ∧ w.blobs "/tmp/mldsa_sig.bin" ≠ none)
        ∨ (d = "Cannot open ctx\n" ∧ w.blobs "/tmp/mldsa_ctx.bin" = none
              ∧ (∃ p, w.blobs "/tmp/mldsa_pk.bin" = some p ∧ P.CRYPTO_PUBLICKEYBYTES ≤ p.length)
              ∧ w.blobs "/tmp/mldsa_sig.bin" ≠ none ∧ w.blobs "/tmp/mldsa_msg.bin" ≠ none)) := by
  cases hp : w.blobs "/tmp/mldsa_pk.bin" with
  | none => exact ⟨_, mldsa87_no_pk P w o hp, Or.inl ⟨rfl, rfl⟩⟩
  | some p =>
    by_cases hN : P.CRYPTO_PUBLICKEYBYTES ≤ p.length
    · cases hs : w.blobs "/tmp/mldsa_sig.bin" with
      | none => exact ⟨_, mldsa87_no_sig P w o p hp hN hs, Or.inr (Or.inr (Or.inl ⟨rfl, rfl, p, rfl, hN⟩))⟩
      | some s =>
        cases hm : w.blobs "/tmp/mldsa_msg.bin" with
        | none =>
          exact ⟨_, mldsa87_no_msg P w o p s hp hN hs hm,
            Or.inr (Or.inr (Or.inr (Or.inl ⟨rfl, rfl, ⟨p, rfl, hN⟩, Option.some_ne_none s⟩)))⟩
        | some m =>
          cases hc : w.blobs "/tmp/mldsa_ctx.bin" with
          | none =>
            exact ⟨_, mldsa87_no_ctx P w o p s m hp hN hs hm hc,
              Or.inr (Or.inr (Or.inr (Or.inr
                ⟨rfl, rfl, ⟨p, rfl, hN⟩, Option.some_ne_none s, Option.some_ne_none m⟩)))⟩
          | some c =>
            rw [hp, hs, hm, hc] at h
            simp at h
    · exact ⟨_, mldsa87_short_pk P w o p hp (by omega),
        Or.inr (Or.inl ⟨rfl, p, rfl, by omega⟩)⟩

/-- The XMSS consumer with one of its files absent: one line of diagnostic, naming the
first file that could not be opened, or the key that came short before that. -/
theorem xmss_absent (w : World) (o : XmssArgs → Int)
    (h : w.blobs "/tmp/xmss_pk.bin" = none ∨ w.blobs "/tmp/xmss_sig.bin" = none
      ∨ w.blobs "/tmp/xmss_msg.bin" = none) :
    ∃ d, xmss_verify_ref w o = ⟨1, [d], none, []⟩
      ∧ ((d = "Cannot open pk\n" ∧ w.blobs "/tmp/xmss_pk.bin" = none)
        ∨ (d = "Failed to read pk\n"
            ∧ ∃ p, w.blobs "/tmp/xmss_pk.bin" = some p ∧ p.length < 64)
        ∨ (d = "Cannot open sig\n" ∧ w.blobs "/tmp/xmss_sig.bin" = none
              ∧ (∃ p, w.blobs "/tmp/xmss_pk.bin" = some p ∧ 64 ≤ p.length))
        ∨ (d = "Cannot open msg\n" ∧ w.blobs "/tmp/xmss_msg.bin" = none
              ∧ (∃ p, w.blobs "/tmp/xmss_pk.bin" = some p ∧ 64 ≤ p.length)
              ∧ w.blobs "/tmp/xmss_sig.bin" ≠ none)) := by
  cases hp : w.blobs "/tmp/xmss_pk.bin" with
  | none => exact ⟨_, xmss_no_pk w o hp, Or.inl ⟨rfl, rfl⟩⟩
  | some p =>
    by_cases hN : 64 ≤ p.length
    · cases hs : w.blobs "/tmp/xmss_sig.bin" with
      | none => exact ⟨_, xmss_no_sig w o p hp hN hs, Or.inr (Or.inr (Or.inl ⟨rfl, rfl, p, rfl, hN⟩))⟩
      | some s =>
        cases hm : w.blobs "/tmp/xmss_msg.bin" with
        | none =>
          exact ⟨_, xmss_no_msg w o p s hp hN hs hm, Or.inr (Or.inr (Or.inr ⟨rfl, rfl, ⟨p, rfl, hN⟩, Option.some_ne_none s⟩))⟩
        | some m =>
          rw [hp, hs, hm] at h
          simp at h
    · exact ⟨_, xmss_short_pk w o p hp (by omega),
        Or.inr (Or.inl ⟨rfl, p, rfl, by omega⟩)⟩

/-- A one-line diagnostic that starts with `C` or `F` differs, as text, from any output
whose first piece starts with another letter. -/
theorem diagnostic_ne_report (d h : String) (out : List String) (c : Char)
    (hd : d.toList.head? = some 'C' ∨ d.toList.head? = some 'F')
    (e : out.head? = some h) (f : h.toList.head? = some c) (n1 : c ≠ 'C') (n2 : c ≠ 'F') :
    stdoutText [d] ≠ stdoutText out := by
  rcases hd with hd | hd
  · exact stdoutText_ne [d] out d h 'C' c rfl e hd f (fun x => n1 x.symm)
  · exact stdoutText_ne [d] out d h 'F' c rfl e hd f (fun x => n2 x.symm)

/-- The Dilithium producer never looks at what key generation and signing return: when
the self-verification accepts, it writes its three files and exits with 0. -/
theorem dilithium_sign_accepted (P : LatticeParams) (w : World)
    (kp : List Byte → List Byte → KeypairOut)
    (sg : List Byte → List Byte → Nat → List Byte → SignOut) (o : VerifyArgs → Int)
    (ho : ∀ a, o a = 0) :
    (dilithium_sign_ref P w kp sg o).status = 0
      ∧ (dilithium_sign_ref P w kp sg o).written.map Prod.fst =
          ["/tmp/ref_dilithium_pk.bin", "/tmp/ref_dilithium_sig.bin",
           "/tmp/ref_dilithium_msg.bin"] := by
  simp only [dilithium_sign_ref, ho, ne_eq, not_true_eq_false, if_false]
  exact ⟨trivial, rfl⟩

/-- The ML-DSA-87 producer never looks at what key generation and signing return: when
the self-verification accepts, it writes its four files and exits with 0. -/
theorem mldsa87_sign_accepted (P : LatticeParams) (w : World)
    (kp : List Byte → List Byte → KeypairOut)
    (sg : List Byte → List Byte → Nat → List Byte → Nat → List Byte → SignOut)
    (o : CtxVerifyArgs → Int) (ho : ∀ a, o a = 0) :
    (mldsa87_sign_ref P w kp sg o).status = 0
      ∧ (mldsa87_sign_ref P w kp sg o).written.map Prod.fst =
          ["/tmp/ref_mldsa_pk.bin", "/tmp/ref_mldsa_sig.bin", "/tmp/ref_mldsa_msg.bin",
           "/tmp/ref_mldsa_ctx.bin"] := by
  simp only [mldsa87_sign_ref, ho, ne_eq, not_true_eq_false, if_false]
  exact ⟨trivial, rfl⟩

/-- The SPHINCS+ producer checks what key generation returns: a value other than 0 ends
the run with status 1 before anything is signed, verified or written. -/
theorem sphincs_sign_keygen_failed (P : SpxParams) (w : World)
    (kp : List Byte → List Byte → List Byte → KeypairOut)
    (sg : List Byte → List Byte → Nat → List Byte → SignOut) (o : VerifyArgs → Int)
    (f : List Byte) (hf : w.blobs "/tmp/sphincs_seed.bin" = some f)
    (hlen : 3 * P.SPX_N ≤ f.length)
    (hk : ∀ pk sk seed, (kp pk sk seed).ret ≠ 0) :
    sphincs_sign_ref P w kp sg o = ⟨1, ["Key generation failed\n"], none, []⟩ := by
  have hr : (fread (uninit w "seed" (3 * P.SPX_N)) (3 * P.SPX_N) f).2 = 3 * P.SPX_N := by
    simp only [fread]; omega
  simp only [sphincs_sign_ref, fopen, hf, hr, ne_eq, not_true_eq_false, if_false]
  rw [if_pos (hk _ _ _)]

/-- The SPHINCS+ producer checks what signing returns: a value other than 0 ends the run
with status 1 before anything is verified or written. -/
theorem sphincs_sign_signing_failed (P : SpxParams) (w : World)
    (kp : List Byte → List Byte → List Byte → KeypairOut)
    (sg : List Byte → List Byte → Nat → List Byte → SignOut) (o : VerifyArgs → Int)
    (f : List Byte) (hf : w.blobs "/tmp/sphincs_seed.bin" = some f)
    (hlen : 3 * P.SPX_N ≤ f.length)
    (hk : ∀ pk sk seed, (kp pk sk seed).ret = 0)
    (hsg : ∀ sig msg msglen sk, (sg sig msg msglen sk).ret ≠ 0) :
    sphincs_sign_ref P w kp sg o = ⟨1, ["Signing failed\n"], none, []⟩ := by
  have hr : (fread (uninit w "seed" (3 * P.SPX_N)) (3 * P.SPX_N) f).2 = 3 * P.SPX_N := by
    simp only [fread]; omega
  simp only [sphincs_sign_ref, fopen, hf, hr, hk, ne_eq, not_true_eq_false, if_false]
  rw [if_pos (hsg _ _ _ _)]

/-! ## The claims -/

/-- C1. In the XMSS consumer, for every 64-byte subject public key `pk` (with the
signature and message files present and memory for `sm`), the key handed to
`xmss_sign_open` is `[0x00,0x00,0x00,0x01] ++ pk`: the big-endian OID 1, then `pk` byte
for byte, `REF_PK_BYTES = 68` bytes in all, 4 more than the subject key. -/
theorem xmss_reference_pk_is_oid_then_subject_pk (w : World) (o : XmssArgs → Int)
    (pk s m : List Byte) (hlen : pk.length = 64)
    (hp : w.blobs "/tmp/xmss_pk.bin" = some pk)
    (hs : w.blobs "/tmp/xmss_sig.bin" = some s)
    (hm : w.blobs "/tmp/xmss_msg.bin" = some m)
    (hmal : w.mallocOk (min REF_SIG_BYTES s.length + min 256 m.length) = true) :
    ∃ l, (xmss_verify_ref w o).call = some l
      ∧ l.args.pk = [0x00, 0x00, 0x00, 0x01] ++ pk
      ∧ l.args.pk.take 4 = bigEndian32 XMSS_SHA2_10_256_OID
      ∧ l.args.pk.drop 4 = pk
      ∧ l.args.pk.length = pk.length + 4
      ∧ l.args.pk.length = REF_PK_BYTES
      ∧ REF_PK_BYTES = 68 := by
  obtain ⟨l, hcall, -, hpk, -⟩ := xmss_reaches_call w o pk s m hp (by omega) hs hm hmal
  have hfull : pk.take 64 = pk := List.take_of_length_le (by omega)
  rw [hfull] at hpk
  have hargs : l.args.pk = l.ref_pk := rfl
  refine ⟨l, hcall, ?_, ?_, ?_, ?_, ?_, rfl⟩
  · rw [hargs, hpk]
  · rw [hargs, hpk]; rfl
  · rw [hargs, hpk]; rfl
  · rw [hargs, hpk]; simp
  · rw [hargs, hpk]; simp [hlen, REF_PK_BYTES, PARAM_N]

/-- A run C1 applies to: a stored key of 64 bytes `07`, a signature of 2500 bytes and the
message `test`. -/
theorem xmss_reference_pk_witness :
    ∃ l, (xmss_verify_ref (worldOf (xmssFiles (List.replicate 64 7) (List.replicate 2500 9)
        testMsg)) (fun _ => 0)).call = some l
      ∧ l.args.pk = [0x00, 0x00, 0x00, 0x01] ++ List.replicate 64 7
      ∧ l.args.pk.take 4 = bigEndian32 XMSS_SHA2_10_256_OID
      ∧ l.args.pk.drop 4 = List.replicate 64 7
      ∧ l.args.pk.length = (List.replicate 64 (7 : Byte)).length + 4
      ∧ l.args.pk.length = REF_PK_BYTES
      ∧ REF_PK_BYTES = 68 :=
  xmss_reference_pk_is_oid_then_subject_pk _ _ (List.replicate 64 7) (List.replicate 2500 9)
    testMsg (by simp) rfl rfl rfl rfl

/-- C3. In the XMSS consumer, for every signature read (`siglen` bytes) and every message
read (`msglen` bytes, zero included), the buffer `sm` handed to `xmss_sign_open` has
length `siglen + msglen`, starts with the signature and ends with the message, nothing
in between: splitting it at `siglen` gives back the pair. -/
theorem xmss_signed_message_is_sig_then_msg (w : World) (o : XmssArgs → Int)
    (p s m : List Byte)
    (hp : w.blobs "/tmp/xmss_pk.bin" = some p) (h64 : 64 ≤ p.length)
    (hs : w.blobs "/tmp/xmss_sig.bin" = some s)
    (hm : w.blobs "/tmp/xmss_msg.bin" = some m)
    (hmal : w.mallocOk (min REF_SIG_BYTES s.length + min 256 m.length) = true) :
    ∃ l, (xmss_verify_ref w o).call = some l
      ∧ l.sig.take l.siglen = s.take REF_SIG_BYTES
      ∧ l.msg.take l.msglen = m.take 256
      ∧ l.args.smlen = l.siglen + l.msglen
      ∧ l.args.sm.length = l.siglen + l.msglen
      ∧ l.args.sm = l.sig.take l.siglen ++ l.msg.take l.msglen
      ∧ l.args.sm.take l.siglen = l.sig.take l.siglen
      ∧ l.args.sm.drop l.siglen = l.msg.take l.msglen
      ∧ l.args.sm.splitAt l.siglen = (l.sig.take l.siglen, l.msg.take l.msglen) := by
  obtain ⟨l, hcall, -, -, hsl, hml, hsig, hmsg, hsm, -⟩ :=
    xmss_reaches_call w o p s m hp h64 hs hm hmal
  have hargs : l.args.sm = l.sm := rfl
  have hlen1 : (s.take REF_SIG_BYTES).length = l.siglen := by rw [hsl]; simp
  have hlen2 : (m.take 256).length = l.msglen := by rw [hml]; simp
  refine ⟨l, hcall, hsig, hmsg, rfl, ?_, ?_, ?_, ?_, ?_⟩
  · rw [hargs, hsm, List.length_append, hlen1, hlen2]
  · rw [hargs, hsm, hsig, hmsg]
  · rw [hargs, hsm, hsig, ← hlen1, List.take_left']
    rfl
  · rw [hargs, hsm, hmsg, ← hlen1, List.drop_left']
    rfl
  · rw [List.splitAt_eq, hargs, hsm, hsig, hmsg, ← hlen1, List.take_left' rfl,
      List.drop_left' rfl]

/-- A run C3 applies to, with an empty message. -/
theorem xmss_signed_message_witness :
    ∃ l, (xmss_verify_ref (worldOf (xmssFiles (List.replicate 64 7) (List.replicate 2500 9)
        [])) (fun _ => 0)).call = some l
      ∧ l.sig.take l.siglen = (List.replicate 2500 9).take REF_SIG_BYTES
      ∧ l.msg.take l.msglen = ([] : List Byte).take 256
      ∧ l.args.smlen = l.siglen + l.msglen
      ∧ l.args.sm.length = l.siglen + l.msglen
      ∧ l.args.sm = l.sig.take l.siglen ++ l.msg.take l.msglen
      ∧ l.args.sm.take l.siglen = l.sig.take l.siglen
      ∧ l.args.sm.drop l.siglen = l.msg.take l.msglen
      ∧ l.args.sm.splitAt l.siglen = (l.sig.take l.siglen, l.msg.take l.msglen) :=
  xmss_signed_message_is_sig_then_msg _ _ (List.replicate 64 7) (List.replicate 2500 9) []
    rfl (by simp) rfl rfl rfl

/-- For each of the seven programs, every blob store and every behaviour of the crypto
calls (writes succeed), the exit status is 0 if and only if the verification call
(cross-verification in a consumer, self-verification in a producer) was reached and
returned 0; otherwise the exit status is 1. This says nothing of what key generation and
signing return, which the two lattice producers never inspect. -/
theorem exit_status_zero_iff_verification_passed :
    (∀ (P : LatticeParams) (w : World) (o : VerifyArgs → Int),
        ExitConvention (dilithium_verify_ref P w o) o)
    ∧ (∀ (P : LatticeParams) (w : World) (o : CtxVerifyArgs → Int),
        ExitConvention (mldsa87_verify_ref P w o) o)
    ∧ (∀ (P : SpxParams) (w : World) (o : VerifyArgs → Int),
        ExitConvention (sphincs_verify_ref P w o) o)
    ∧ (∀ (w : World) (o : XmssArgs → Int),
        ExitConvention (xmss_verify_ref w o) (fun l => o l.args))
    ∧ (∀ (P : LatticeParams) (w : World) (kp : List Byte → List Byte → KeypairOut)
        (sg : List Byte → List Byte → Nat → List Byte → SignOut) (o : VerifyArgs → Int),
        ExitConvention (dilithium_sign_ref P w kp sg o) o)
    ∧ (∀ (P : LatticeParams) (w : World) (kp : List Byte → List Byte → KeypairOut)
        (sg : List Byte → List Byte → Nat → List Byte → Nat → List Byte → SignOut)
        (o : CtxVerifyArgs → Int),
        ExitConvention (mldsa87_sign_ref P w kp sg o) o)
    ∧ (∀ (P : SpxParams) (w : World) (kp : List Byte → List Byte → List Byte → KeypairOut)
        (sg : List Byte → List Byte → Nat → List Byte → SignOut) (o : VerifyArgs → Int),
        ExitConvention (sphincs_sign_ref P w kp sg o) o) := by
  refine ⟨?_, ?_, ?_, ?_, ?_, ?_, ?_⟩
  · intro P w o
    exact convention_of_status _ _ (dilithium_status P w o)
  · intro P w o
    exact convention_of_status _ _ (mldsa87_status P w o)
  · intro P w o
    exact convention_of_status _ _ (sphincs_status P w o)
  · intro w o
    exact convention_of_status _ _ (xmss_status w o)
  · intro P w kp sg o
    obtain ⟨a, h1, h2, -⟩ := dilithium_sign_status P w kp sg o
    exact convention_of_status _ _ (Or.inr ⟨a, h1, h2⟩)
  · intro P w kp sg o
    obtain ⟨a, h1, h2, -⟩ := mldsa87_sign_status P w kp sg o
    exact convention_of_status _ _ (Or.inr ⟨a, h1, h2⟩)
  · intro P w kp sg o
    exact convention_of_status _ _ (sphincs_sign_status P w kp sg o)

/-- C4 fails on dilithium_sign_ref.c and mldsa87_sign_ref.c: with key generation and
signing both returning -1 and the self-verification returning 0, either producer writes
its files and exits with status 0, where the claim has status 1 for a key-generation or
signing failure. -/
theorem lattice_producers_exit_0_after_failed_keygen_and_signing :
    (keypairFails [] []).ret = -1 ∧ (signFails [] [] 0 []).ret = -1
    ∧ (ctxSignFails [] [] 0 [] 0 []).ret = -1
    ∧ (dilithium_sign_ref dilithium5Sizes (worldOf []) keypairFails signFails
        (fun _ => 0)).status = 0
    ∧ (dilithium_sign_ref dilithium5Sizes (worldOf []) keypairFails signFails
        (fun _ => 0)).written.map Prod.fst =
      ["/tmp/ref_dilithium_pk.bin", "/tmp/ref_dilithium_sig.bin",
       "/tmp/ref_dilithium_msg.bin"]
    ∧ (mldsa87_sign_ref mldsa87Sizes (worldOf []) keypairFails ctxSignFails
        (fun _ => 0)).status = 0
    ∧ (mldsa87_sign_ref mldsa87Sizes (worldOf []) keypairFails ctxSignFails
        (fun _ => 0)).written.map Prod.fst =
      ["/tmp/ref_mldsa_pk.bin", "/tmp/ref_mldsa_sig.bin", "/tmp/ref_mldsa_msg.bin",
       "/tmp/ref_mldsa_ctx.bin"] :=
  ⟨rfl, rfl, rfl,
   (dilithium_sign_accepted dilithium5Sizes (worldOf []) keypairFails signFails
     (fun _ => 0) (fun _ => rfl)).1,
   (dilithium_sign_accepted dilithium5Sizes (worldOf []) keypairFails signFails
     (fun _ => 0) (fun _ => rfl)).2,
   (mldsa87_sign_accepted mldsa87Sizes (worldOf []) keypairFails ctxSignFails
     (fun _ => 0) (fun _ => rfl)).1,
   (mldsa87_sign_accepted mldsa87Sizes (worldOf []) keypairFails ctxSignFails
     (fun _ => 0) (fun _ => rfl)).2⟩

/-- C5. In the XMSS consumer, a stored public key shorter than 64 bytes (63, say) ends
the round with the pk read error and exit status 1: nothing is padded, no reference key
is built and `xmss_sign_open` is not called. -/
theorem xmss_pk_too_short_fails_without_call (w : World) (o : XmssArgs → Int) (p : List Byte)
    (hp : w.blobs "/tmp/xmss_pk.bin" = some p) (hshort : p.length < 64) :
    (xmss_verify_ref w o).status = 1
      ∧ (xmss_verify_ref w o).out = ["Failed to read pk\n"]
      ∧ (xmss_verify_ref w o).call = none
      ∧ (xmss_verify_ref w o).written = [] := by
  rw [xmss_short_pk w o p hp hshort]
  exact ⟨rfl, rfl, rfl, rfl⟩

/-- A run C5 applies to: a stored key of 63 bytes. -/
theorem xmss_pk_too_short_witness :
    (xmss_verify_ref (worldOf (xmssFiles (List.replicate 63 7) (List.replicate 2500 9)
        testMsg)) (fun _ => 0)).status = 1
      ∧ (xmss_verify_ref (worldOf (xmssFiles (List.replicate 63 7) (List.replicate 2500 9)
        testMsg)) (fun _ => 0)).out = ["Failed to read pk\n"]
      ∧ (xmss_verify_ref (worldOf (xmssFiles (List.replicate 63 7) (List.replicate 2500 9)
        testMsg)) (fun _ => 0)).call = none
      ∧ (xmss_verify_ref (worldOf (xmssFiles (List.replicate 63 7) (List.replicate 2500 9)
        testMsg)) (fun _ => 0)).written = [] :=
  xmss_pk_too_short_fails_without_call _ _ (List.replicate 63 7) rfl (by simp)

/-- C10. In the XMSS consumer, whenever `xmss_sign_open` is called, `siglen` is at most
`REF_SIG_BYTES = 4 + 32 + 67*32 + 10*32 = 2500` and `msglen` at most 256, so the length
`siglen + msglen` passed is at most 2756, the size of `msg_out`; `sm` has that length and
every index the two copies store to is below it. -/
theorem xmss_lengths_within_buffers (w : World) (o : XmssArgs → Int) (l : XmssLocals)
    (h : (xmss_verify_ref w o).call = some l) :
    l.siglen ≤ REF_SIG_BYTES
      ∧ REF_SIG_BYTES = 4 + 32 + 67 * 32 + 10 * 32
      ∧ REF_SIG_BYTES = 2500
      ∧ l.msglen ≤ 256
      ∧ l.args.smlen = l.siglen + l.msglen
      ∧ l.args.smlen ≤ 2756
      ∧ l.msg_out.length = 256 + REF_SIG_BYTES
      ∧ l.args.smlen ≤ l.msg_out.length
      ∧ l.sm.length = l.siglen + l.msglen
      ∧ (∀ i ∈ l.smStores, i < l.siglen + l.msglen) := by
  obtain ⟨p, s, m, hp, h64, hs, hm, hmal⟩ := xmss_call_inv w o l h
  obtain ⟨l2, hcall, -, -, hsl, hml, -, -, hsm, hst, hout⟩ :=
    xmss_reaches_call w o p s m hp h64 hs hm hmal
  rw [h] at hcall
  cases hcall
  have hR : REF_SIG_BYTES = 2500 := rfl
  have h1 : l.siglen ≤ REF_SIG_BYTES := by rw [hsl]; exact Nat.min_le_left _ _
  have h2 : l.msglen ≤ 256 := by rw [hml]; exact Nat.min_le_left _ _
  have h3 : l.args.smlen = l.siglen + l.msglen := rfl
  refine ⟨h1, rfl, hR, h2, h3, ?_, hout, ?_, ?_, ?_⟩
  · rw [h3]; omega
  · rw [h3, hout]; omega
  · rw [hsm, List.length_append, List.length_take, List.length_take, hsl, hml]
  · intro i hi
    rw [hst, List.mem_append, mem_memcpyIdx, mem_memcpyIdx] at hi
    omega

/-- A run C10 applies to: a stored signature of 3000 bytes and a stored message of 300
bytes, both longer than the buffers. -/
theorem xmss_lengths_witness :
    ∃ l, (xmss_verify_ref (worldOf (xmssFiles (List.replicate 64 7) (List.replicate 3000 9)
        (List.replicate 300 5))) (fun _ => 0)).call = some l
      ∧ l.siglen ≤ REF_SIG_BYTES
      ∧ REF_SIG_BYTES = 4 + 32 + 67 * 32 + 10 * 32
      ∧ REF_SIG_BYTES = 2500
      ∧ l.msglen ≤ 256
      ∧ l.args.smlen = l.siglen + l.msglen
      ∧ l.args.smlen ≤ 2756
      ∧ l.msg_out.length = 256 + REF_SIG_BYTES
      ∧ l.args.smlen ≤ l.msg_out.length
      ∧ l.sm.length = l.siglen + l.msglen
      ∧ (∀ i ∈ l.smStores, i < l.siglen + l.msglen) :=
  (xmss_reaches_call (worldOf (xmssFiles (List.replicate 64 7) (List.replicate 3000 9)
      (List.replicate 300 5))) (fun _ => 0) (List.replicate 64 7) (List.replicate 3000 9)
      (List.replicate 300 5) rfl (by simp) rfl rfl rfl).elim
    (fun l hl => ⟨l, hl.1, xmss_lengths_within_buffers _ _ l hl.1⟩)

/-- C6, as the code has it. For every consumer, a stored public key shorter than the
declared size (`CRYPTO_PUBLICKEYBYTES`, `SPX_PK_BYTES`, 64) ends the round with status 1
and no verification call; a stored key at least that long is accepted and its first
bytes, as many as the declared size, are the key handed to the verification call (after
the OID for XMSS), whatever follows them in the file. -/
theorem short_pk_rejected_long_pk_cut :
    (∀ (P : LatticeParams) (w : World) (o : VerifyArgs → Int) (p : List Byte),
        w.blobs "/tmp/dilithium_pk.bin" = some p →
        (p.length < P.CRYPTO_PUBLICKEYBYTES →
          (dilithium_verify_ref P w o).status = 1 ∧ (dilithium_verify_ref P w o).call = none)
        ∧ (P.CRYPTO_PUBLICKEYBYTES ≤ p.length → ∀ s m,
            w.blobs "/tmp/dilithium_sig.bin" = some s →
            w.blobs "/tmp/dilithium_msg.bin" = some m →
            ∃ a, (dilithium_verify_ref P w o).call = some a
              ∧ a.pk = p.take P.CRYPTO_PUBLICKEYBYTES))
    ∧ (∀ (P : LatticeParams) (w : World) (o : CtxVerifyArgs → Int) (p : List Byte),
        w.blobs "/tmp/mldsa_pk.bin" = some p →
        (p.length < P.CRYPTO_PUBLICKEYBYTES →
          (mldsa87_verify_ref P w o).status = 1 ∧ (mldsa87_verify_ref P w o).call = none)
        ∧ (P.CRYPTO_PUBLICKEYBYTES ≤ p.length → ∀ s m c,
            w.blobs "/tmp/mldsa_sig.bin" = some s →
            w.blobs "/tmp/mldsa_msg.bin" = some m →
            w.blobs "/tmp/mldsa_ctx.bin" = some c →
            ∃ a, (mldsa87_verify_ref P w o).call = some a
              ∧ a.pk = p.take P.CRYPTO_PUBLICKEYBYTES))
    ∧ (∀ (P : SpxParams) (w : World) (o : VerifyArgs → Int) (p : List Byte),
        w.blobs "/tmp/sphincs_pk.bin" = some p →
        (p.length < P.SPX_PK_BYTES →
          (sphincs_verify_ref P w o).status = 1 ∧ (sphincs_verify_ref P w o).call = none)
        ∧ (P.SPX_PK_BYTES ≤ p.length → ∀ s m,
            w.blobs "/tmp/sphincs_sig.bin" = some s →
            w.blobs "/tmp/sphincs_msg.bin" = some m →
            ∃ a, (sphincs_verify_ref P w o).call = some a ∧ a.pk = p.take P.SPX_PK_BYTES))
    ∧ (∀ (w : World) (o : XmssArgs → Int) (p : List Byte),
        w.blobs "/tmp/xmss_pk.bin" = some p →
        (p.length < 64 →
          (xmss_verify_ref w o).status = 1 ∧ (xmss_verify_ref w o).call = none)
        ∧ (64 ≤ p.length → ∀ s m,
            w.blobs "/tmp/xmss_sig.bin" = some s →
            w.blobs "/tmp/xmss_msg.bin" = some m →
            w.mallocOk (min REF_SIG_BYTES s.length + min 256 m.length) = true →
            ∃ l, (xmss_verify_ref w o).call = some l
              ∧ l.args.pk = [0x00, 0x00, 0x00, 0x01] ++ p.take 64)) := by
  refine ⟨?_, ?_, ?_, ?_⟩
  · intro P w o p hp
    refine ⟨fun h => ?_, fun h s m hs hm => ?_⟩
    · rw [dilithium_short_pk P w o p hp h]; exact ⟨rfl, rfl⟩
    · obtain ⟨a, h1, -, -, h4, -⟩ := dilithium_reaches_call P w o p s m hp h hs hm
      exact ⟨a, h1, h4⟩
  · intro P w o p hp
    refine ⟨fun h => ?_, fun h s m c hs hm hc => ?_⟩
    · rw [mldsa87_short_pk P w o p hp h]; exact ⟨rfl, rfl⟩
    · obtain ⟨a, h1, -, -, -, h4, -⟩ := mldsa87_reaches_call P w o p s m c hp h hs hm hc
      exact ⟨a, h1, h4⟩
  · intro P w o p hp
    refine ⟨fun h => ?_, fun h s m hs hm => ?_⟩
    · rw [sphincs_short_pk P w o p hp h]; exact ⟨rfl, rfl⟩
    · obtain ⟨a, h1, -, -, h4, -⟩ := sphincs_reaches_call P w o p s m hp h hs hm
      exact ⟨a, h1, h4⟩
  · intro w o p hp
    refine ⟨fun h => ?_, fun h s m hs hm hmal => ?_⟩
    · rw [xmss_short_pk w o p hp h]; exact ⟨rfl, rfl⟩
    · obtain ⟨l, h1, -, h3, -⟩ := xmss_reaches_call w o p s m hp h hs hm hmal
      exact ⟨l, h1, h3⟩

/-- Runs of the XMSS consumer on a stored key of 63 bytes and on one of 66 bytes. -/
theorem short_pk_rejected_long_pk_cut_witness :
    ((xmss_verify_ref (worldOf (xmssFiles (List.replicate 63 7) (List.replicate 2500 9)
        testMsg)) (fun _ => 0)).status = 1
      ∧ (xmss_verify_ref (worldOf (xmssFiles (List.replicate 63 7) (List.replicate 2500 9)
        testMsg)) (fun _ => 0)).call = none)
    ∧ ∃ l, (xmss_verify_ref (worldOf (xmssFiles (List.replicate 66 7) (List.replicate 2500 9)
        testMsg)) (fun _ => 0)).call = some l
      ∧ l.args.pk = [0x00, 0x00, 0x00, 0x01] ++ (List.replicate 66 7).take 64 :=
  ⟨(short_pk_rejected_long_pk_cut.2.2.2 _ _ (List.replicate 63 7) rfl).1 (by simp),
   (short_pk_rejected_long_pk_cut.2.2.2 _ _ (List.replicate 66 7) rfl).2 (by simp)
     (List.replicate 2500 9) testMsg rfl rfl rfl⟩

/-- C6 as stated fails: the XMSS consumer given a stored public key of 65 bytes does not
fail; it calls `xmss_sign_open` with the OID and the first 64 bytes, and exits with 0
when that call returns 0. -/
theorem xmss_pk_of_65_bytes_accepted :
    ((worldOf (xmssFiles (List.replicate 65 7) (List.replicate 2500 9) testMsg)).blobs
        "/tmp/xmss_pk.bin").map List.length = some 65
    ∧ (xmss_verify_ref (worldOf (xmssFiles (List.replicate 65 7) (List.replicate 2500 9)
        testMsg)) (fun _ => 0)).status = 0
    ∧ ∃ l, (xmss_verify_ref (worldOf (xmssFiles (List.replicate 65 7) (List.replicate 2500 9)
        testMsg)) (fun _ => 0)).call = some l
      ∧ l.args.pk = [0x00, 0x00, 0x00, 0x01] ++ List.replicate 64 7 := by
  obtain ⟨l, h1, h2, h3, -⟩ := xmss_reaches_call
    (worldOf (xmssFiles (List.replicate 65 7) (List.replicate 2500 9) testMsg)) (fun _ => 0)
    (List.replicate 65 7) (List.replicate 2500 9) testMsg rfl (by simp) rfl rfl rfl
  refine ⟨?_, ?_, l, h1, ?_⟩
  · show Option.map List.length (some (List.replicate 65 (7 : Byte))) = some 65
    rw [Option.map_some', List.length_replicate]
  · rw [h2]; simp
  · show l.ref_pk = _
    rw [h3, List.take_replicate]
    rfl

/-- C7, as the code has it. For every consumer and every stored signature, the
signature handed to the verification call is the stored one cut to the read bound
(`CRYPTO_BYTES`, `SPX_BYTES`, `REF_SIG_BYTES`): a stored signature no longer than the
bound is handed over with exactly its length and bytes, never padded; a longer one
loses what lies beyond the bound. -/
theorem signature_handed_is_blob_cut_to_bound :
    (∀ (P : LatticeParams) (w : World) (o : VerifyArgs → Int) (p s m : List Byte),
        w.blobs "/tmp/dilithium_pk.bin" = some p → P.CRYPTO_PUBLICKEYBYTES ≤ p.length →
        w.blobs "/tmp/dilithium_sig.bin" = some s →
        w.blobs "/tmp/dilithium_msg.bin" = some m →
        ∃ a, (dilithium_verify_ref P w o).call = some a
          ∧ a.siglen = min P.CRYPTO_BYTES s.length
          ∧ a.signature = s.take P.CRYPTO_BYTES
          ∧ (s.length ≤ P.CRYPTO_BYTES → a.siglen = s.length ∧ a.signature = s))
    ∧ (∀ (P : LatticeParams) (w : World) (o : CtxVerifyArgs → Int) (p s m c : List Byte),
        w.blobs "/tmp/mldsa_pk.bin" = some p → P.CRYPTO_PUBLICKEYBYTES ≤ p.length →
        w.blobs "/tmp/mldsa_sig.bin" = some s →
        w.blobs "/tmp/mldsa_msg.bin" = some m →
        w.blobs "/tmp/mldsa_ctx.bin" = some c →
        ∃ a, (mldsa87_verify_ref P w o).call = some a
          ∧ a.siglen = min P.CRYPTO_BYTES s.length
          ∧ a.signature = s.take P.CRYPTO_BYTES
          ∧ (s.length ≤ P.CRYPTO_BYTES → a.siglen = s.length ∧ a.signature = s))
    ∧ (∀ (P : SpxParams) (w : World) (o : VerifyArgs → Int) (p s m : List Byte),
        w.blobs "/tmp/sphincs_pk.bin" = some p → P.SPX_PK_BYTES ≤ p.length →
        w.blobs "/tmp/sphincs_sig.bin" = some s →
        w.blobs "/tmp/sphincs_msg.bin" = some m →
        ∃ a, (sphincs_verify_ref P w o).call = some a
          ∧ a.siglen = min P.SPX_BYTES s.length
          ∧ a.signature = s.take P.SPX_BYTES
          ∧ (s.length ≤ P.SPX_BYTES → a.siglen = s.length ∧ a.signature = s))
    ∧ (∀ (w : World) (o : XmssArgs → Int) (p s m : List Byte),
        w.blobs "/tmp/xmss_pk.bin" = some p → 64 ≤ p.length →
        w.blobs "/tmp/xmss_sig.bin" = some s →
        w.blobs "/tmp/xmss_msg.bin" = some m →
        w.mallocOk (min REF_SIG_BYTES s.length + min 256 m.length) = true →
        ∃ l, (xmss_verify_ref w o).call = some l
          ∧ l.args.sm = s.take REF_SIG_BYTES ++ m.take 256
          ∧ l.args.smlen = min REF_SIG_BYTES s.length + min 256 m.length
          ∧ l.args.sm.length = l.args.smlen
          ∧ l.siglen = min REF_SIG_BYTES s.length
          ∧ l.args.sm.take l.siglen = s.take REF_SIG_BYTES
          ∧ (s.length ≤ REF_SIG_BYTES →
              l.args.sm = s ++ m.take 256
              ∧ l.args.smlen = s.length + min 256 m.length
              ∧ l.siglen = s.length ∧ l.args.sm.take l.siglen = s)) := by
  refine ⟨?_, ?_, ?_, ?_⟩
  · intro P w o p s m hp hN hs hm
    obtain ⟨a, h1, -, -, -, h5, h6, -⟩ := dilithium_reaches_call P w o p s m hp hN hs hm
    refine ⟨a, h1, h5, h6, fun hle => ⟨?_, ?_⟩⟩
    · rw [h5]; exact Nat.min_eq_right hle
    · rw [h6]; exact List.take_of_length_le hle
  · intro P w o p s m c hp hN hs hm hc
    obtain ⟨a, h1, -, -, -, -, h5, h6, -⟩ :=
      mldsa87_reaches_call P w o p s m c hp hN hs hm hc
    refine ⟨a, h1, h5, h6, fun hle => ⟨?_, ?_⟩⟩
    · rw [h5]; exact Nat.min_eq_right hle
    · rw [h6]; exact List.take_of_length_le hle
  · intro P w o p s m hp hN hs hm
    obtain ⟨a, h1, -, -, -, h5, h6, -⟩ := sphincs_reaches_call P w o p s m hp hN hs hm
    refine ⟨a, h1, h5, h6, fun hle => ⟨?_, ?_⟩⟩
    · rw [h5]; exact Nat.min_eq_right hle
    · rw [h6]; exact List.take_of_length_le hle
  · intro w o p s m hp hN hs hm hmal
    obtain ⟨l, h1, -, -, h5, h6, -, -, h9, -⟩ := xmss_reaches_call w o p s m hp hN hs hm hmal
    have hsm : l.args.sm = s.take REF_SIG_BYTES ++ m.take 256 := h9
    have hlen : l.args.smlen = min REF_SIG_BYTES s.length + min 256 m.length := by
      show l.siglen + l.msglen = _
      rw [h5, h6]
    have hcut : l.args.sm.take l.siglen = s.take REF_SIG_BYTES := by
      have hl : (s.take REF_SIG_BYTES).length = l.siglen := by rw [h5]; simp
      rw [hsm, ← hl, List.take_left']
      rfl
    refine ⟨l, h1, hsm, hlen, ?_, h5, hcut, fun hle => ⟨?_, ?_, ?_, ?_⟩⟩
    · rw [hsm, hlen, List.length_append, List.length_take, List.length_take]
    · rw [hsm, List.take_of_length_le hle]
    · rw [hlen, Nat.min_eq_right hle]
    · rw [h5]; exact Nat.min_eq_right hle
    · rw [hcut]; exact List.take_of_length_le hle

/-- A run of the XMSS consumer on a stored signature of exactly 2500 bytes: the call gets
the 2500 bytes followed by the message, 2504 bytes in all. -/
theorem signature_handed_witness :
    ∃ l, (xmss_verify_ref (worldOf (xmssFiles (List.replicate 64 7) (List.replicate 2500 9)
        testMsg)) (fun _ => 0)).call = some l
      ∧ l.args.sm = List.replicate 2500 9 ++ testMsg.take 256
      ∧ l.args.smlen = (List.replicate 2500 (9 : Byte)).length + min 256 testMsg.length
      ∧ l.siglen = (List.replicate 2500 (9 : Byte)).length
      ∧ l.args.sm.take l.siglen = List.replicate 2500 9 :=
  (signature_handed_is_blob_cut_to_bound.2.2.2
    (worldOf (xmssFiles (List.replicate 64 7) (List.replicate 2500 9) testMsg)) (fun _ => 0)
    (List.replicate 64 7) (List.replicate 2500 9) testMsg rfl (by simp) rfl rfl rfl).elim
    (fun l h => ⟨l, h.1,
      h.2.2.2.2.2.2 (by rw [List.length_replicate]; exact Nat.le_refl _)⟩)

/-- C7 as stated fails: the XMSS consumer given a stored signature of 2501 bytes hands
`xmss_sign_open` only its first 2500 bytes, followed by the 4 bytes of the message. -/
theorem xmss_sig_of_2501_bytes_cut :
    ((worldOf (xmssFiles (List.replicate 64 7) (List.replicate 2501 9) testMsg)).blobs
        "/tmp/xmss_sig.bin").map List.length = some 2501
    ∧ ∃ l, (xmss_verify_ref (worldOf (xmssFiles (List.replicate 64 7) (List.replicate 2501 9)
        testMsg)) (fun _ => 0)).call = some l
      ∧ l.siglen = 2500
      ∧ (l.sig.take l.siglen).length = 2500
      ∧ l.args.smlen = 2504
      ∧ l.args.sm = List.replicate 2500 9 ++ testMsg := by
  obtain ⟨l, h1, -, -, h5, h6, h7, -, h9, -⟩ := xmss_reaches_call
    (worldOf (xmssFiles (List.replicate 64 7) (List.replicate 2501 9) testMsg)) (fun _ => 0)
    (List.replicate 64 7) (List.replicate 2501 9) testMsg rfl (by simp) rfl rfl rfl
  have hR : REF_SIG_BYTES = 2500 := rfl
  have e5 : l.siglen = 2500 := by rw [h5, hR, List.length_replicate]; rfl
  have e6 : l.msglen = 4 := by rw [h6]; rfl
  refine ⟨?_, l, h1, e5, ?_, ?_, ?_⟩
  · show Option.map List.length (some (List.replicate 2501 (9 : Byte))) = some 2501
    rw [Option.map_some', List.length_replicate]
  · rw [h7, hR, List.length_take, List.length_replicate]; rfl
  · show l.siglen + l.msglen = 2504
    rw [e5, e6]
  · show l.sm = _
    rw [h9, hR, List.take_replicate]
    rfl

/-- C8, as the code has it. For every consumer, if a file it needs is absent, the round
ends with exit status 1, no verification call and one line of diagnostic: `Cannot open`
followed by the name of the first absent file, unless the stored public key is present
but short, in which case the line is `Failed to read pk`. Either way that output differs
from the output of every run in which the verification call was made and rejected
(which ends in `Verification: FAILED`). -/
theorem absent_blob_fails_with_own_diagnostic :
    (∀ (P : LatticeParams) (w : World) (o : VerifyArgs → Int),
        (w.blobs "/tmp/dilithium_pk.bin" = none
          ∨ w.blobs "/tmp/dilithium_sig.bin" = none
          ∨ w.blobs "/tmp/dilithium_msg.bin" = none) →
        (∃ d, dilithium_verify_ref P w o = ⟨1, [d], none, []⟩
          ∧ ((d = "Cannot open pk\n" ∧ w.blobs "/tmp/dilithium_pk.bin" = none)
            ∨ (d = "Failed to read pk\n"
              ∧ ∃ p, w.blobs "/tmp/dilithium_pk.bin" = some p ∧ p.length < P.CRYPTO_PUBLICKEYBYTES)
            ∨ (d = "Cannot open sig\n" ∧ w.blobs "/tmp/dilithium_sig.bin" = none
              ∧ (∃ p, w.blobs "/tmp/dilithium_pk.bin" = some p ∧ P.CRYPTO_PUBLICKEYBYTES ≤ p.length))
            ∨ (d = "Cannot open msg\n" ∧ w.blobs "/tmp/dilithium_msg.bin" = none
              ∧ (∃ p, w.blobs "/tmp/dilithium_pk.bin" = some p ∧ P.CRYPTO_PUBLICKEYBYTES ≤ p.length)
              ∧ w.blobs "/tmp/dilithium_sig.bin" ≠ none)))
        ∧ ∀ (Q : LatticeParams) (w2 : World) (o2 : VerifyArgs → Int) a,
            (dilithium_verify_ref Q w2 o2).call = some a → o2 a ≠ 0 →
            (dilithium_verify_ref Q w2 o2).out.getLast? = some "  Verification: FAILED\n"
              ∧ stdoutText (dilithium_verify_ref P w o).out
                  ≠ stdoutText (dilithium_verify_ref Q w2 o2).out)
    ∧ (∀ (P : LatticeParams) (w : World) (o : CtxVerifyArgs → Int),
        (w.blobs "/tmp/mldsa_pk.bin" = none
          ∨ w.blobs "/tmp/mldsa_sig.bin" = none
          ∨ w.blobs "/tmp/mldsa_msg.bin" = none
          ∨ w.blobs "/tmp/mldsa_ctx.bin" = none) →
        (∃ d, mldsa87_verify_ref P w o = ⟨1, [d], none, []⟩
          ∧ ((d = "Cannot open pk\n" ∧ w.blobs "/tmp/mldsa_pk.bin" = none)
            ∨ (d = "Failed to read pk\n"
              ∧ ∃ p, w.blobs "/tmp/mldsa_pk.bin" = some p ∧ p.length < P.CRYPTO_PUBLICKEYBYTES)
            ∨ (d = "Cannot open sig\n" ∧ w.blobs "/tmp/mldsa_sig.bin" = none
              ∧ (∃ p, w.blobs "/tmp/mldsa_pk.bin" = some p ∧ P.CRYPTO_PUBLICKEYBYTES ≤ p.length))
            ∨ (d = "Cannot open msg\n" ∧ w.blobs "/tmp/mldsa_msg.bin" = none
              ∧ (∃ p, w.blobs "/tmp/mldsa_pk.bin" = some p ∧ P.CRYPTO_PUBLICKEYBYTES ≤ p.length)
              ∧ w.blobs "/tmp/mldsa_sig.bin" ≠ none)
            ∨ (d = "Cannot open ctx\n" ∧ w.blobs "/tmp/mldsa_ctx.bin" = none
              ∧ (∃ p, w.blobs "/tmp/mldsa_pk.bin" = some p ∧ P.CRYPTO_PUBLICKEYBYTES ≤ p.length)
              ∧ w.blobs "/tmp/mldsa_sig.bin" ≠ none ∧ w.blobs "/tmp/mldsa_msg.bin" ≠ none)))
        ∧ ∀ (Q : LatticeParams) (w2 : World) (o2 : CtxVerifyArgs → Int) a,
            (mldsa87_verify_ref Q w2 o2).call = some a → o2 a ≠ 0 →
            (mldsa87_verify_ref Q w2 o2).out.getLast? = some "  Verification: FAILED\n"
              ∧ stdoutText (mldsa87_verify_ref P w o).out
                  ≠ stdoutText (mldsa87_verify_ref Q w2 o2).out)
    ∧ (∀ (P : SpxParams) (w : World) (o : VerifyArgs → Int),
        (w.blobs "/tmp/sphincs_pk.bin" = none
          ∨ w.blobs "/tmp/sphincs_sig.bin" = none
          ∨ w.blobs "/tmp/sphincs_msg.bin" = none) →
        (∃ d, sphincs_verify_ref P w o = ⟨1, [d], none, []⟩
          ∧ ((d = "Cannot open pk\n" ∧ w.blobs "/tmp/sphincs_pk.bin" = none)
            ∨ (d = "Failed to read pk\n"
              ∧ ∃ p, w.blobs "/tmp/sphincs_pk.bin" = some p ∧ p.length < P.SPX_PK_BYTES)
            ∨ (d = "Cannot open sig\n" ∧ w.blobs "/tmp/sphincs_sig.bin" = none
              ∧ (∃ p, w.blobs "/tmp/sphincs_pk.bin" = some p ∧ P.SPX_PK_BYTES ≤ p.length))
            ∨ (d = "Cannot open msg\n" ∧ w.blobs "/tmp/sphincs_msg.bin" = none
              ∧ (∃ p, w.blobs "/tmp/sphincs_pk.bin" = some p ∧ P.SPX_PK_BYTES ≤ p.length)
              ∧ w.blobs "/tmp/sphincs_sig.bin" ≠ none)))
        ∧ ∀ (Q : SpxParams) (w2 : World) (o2 : VerifyArgs → Int) a,
            (sphincs_verify_ref Q w2 o2).call = some a → o2 a ≠ 0 →
            (sphincs_verify_ref Q w2 o2).out.getLast? = some "  Verification: FAILED\n"
              ∧ stdoutText (sphincs_verify_ref P w o).out
                  ≠ stdoutText (sphincs_verify_ref Q w2 o2).out)
    ∧ (∀ (w : World) (o : XmssArgs → Int),
        (w.blobs "/tmp/xmss_pk.bin" = none
          ∨ w.blobs "/tmp/xmss_sig.bin" = none
          ∨ w.blobs "/tmp/xmss_msg.bin" = none) →
        (∃ d, xmss_verify_ref w o = ⟨1, [d], none, []⟩
          ∧ ((d = "Cannot open pk\n" ∧ w.blobs "/tmp/xmss_pk.bin" = none)
            ∨ (d = "Failed to read pk\n"
              ∧ ∃ p, w.blobs "/tmp/xmss_pk.bin" = some p ∧ p.length < 64)
            ∨ (d = "Cannot open sig\n" ∧ w.blobs "/tmp/xmss_sig.bin" = none
              ∧ (∃ p, w.blobs "/tmp/xmss_pk.bin" = some p ∧ 64 ≤ p.length))
            ∨ (d = "Cannot open msg\n" ∧ w.blobs "/tmp/xmss_msg.bin" = none
              ∧ (∃ p, w.blobs "/tmp/xmss_pk.bin" = some p ∧ 64 ≤ p.length)
              ∧ w.blobs "/tmp/xmss_sig.bin" ≠ none)))
        ∧ ∀ (w2 : World) (o2 : XmssArgs → Int) a,
            (xmss_verify_ref w2 o2).call = some a → o2 a.args ≠ 0 →
            (xmss_verify_ref w2 o2).out.getLast? = some "  Verification: FAILED\n"
              ∧ stdoutText (xmss_verify_ref w o).out ≠ stdoutText (xmss_verify_ref w2 o2).out) := by
  refine ⟨?_, ?_, ?_, ?_⟩
  · intro P w o h
    obtain ⟨d, hrun, hd⟩ := dilithium_absent P w o h
    refine ⟨⟨d, hrun, hd⟩, fun Q w2 o2 a hc ho => ?_⟩
    obtain ⟨e1, e2⟩ := dilithium_rejected_out Q w2 o2 a hc ho
    refine ⟨e2, ?_⟩
    rw [hrun]
    refine diagnostic_ne_report d _ _ 'p' ?_ e1 rfl (by decide) (by decide)
    rcases hd with ⟨rfl, -⟩ | hd
    · exact Or.inl rfl
    · rcases hd with ⟨rfl, -⟩ | hd
      · exact Or.inr rfl
      · rcases hd with ⟨rfl, -⟩ | ⟨rfl, -⟩
        · exact Or.inl rfl
        · exact Or.inl rfl
  · intro P w o h
    obtain ⟨d, hrun, hd⟩ := mldsa87_absent P w o h
    refine ⟨⟨d, hrun, hd⟩, fun Q w2 o2 a hc ho => ?_⟩
    obtain ⟨e1, e2⟩ := mldsa87_rejected_out Q w2 o2 a hc ho
    refine ⟨e2, ?_⟩
    rw [hrun]
    refine diagnostic_ne_report d _ _ 'p' ?_ e1 rfl (by decide) (by decide)
    rcases hd with ⟨rfl, -⟩ | hd
    · exact Or.inl rfl
    · rcases hd with ⟨rfl, -⟩ | hd
      · exact Or.inr rfl
      · rcases hd with ⟨rfl, -⟩ | ⟨rfl, -⟩ | ⟨rfl, -⟩
        · exact Or.inl rfl
        · exact Or.inl rfl
        · exact Or.inl rfl
  · intro P w o h
    obtain ⟨d, hrun, hd⟩ := sphincs_absent P w o h
    refine ⟨⟨d, hrun, hd⟩, fun Q w2 o2 a hc ho => ?_⟩
    obtain ⟨e1, e2⟩ := sphincs_rejected_out Q w2 o2 a hc ho
    refine ⟨e2, ?_⟩
    rw [hrun]
    refine diagnostic_ne_report d _ _ 'S' ?_ e1 rfl (by decide) (by decide)
    rcases hd with ⟨rfl, -⟩ | hd
    · exact Or.inl rfl
    · rcases hd with ⟨rfl, -⟩ | hd
      · exact Or.inr rfl
      · rcases hd with ⟨rfl, -⟩ | ⟨rfl, -⟩
        · exact Or.inl rfl
        · exact Or.inl rfl
  · intro w o h
    obtain ⟨d, hrun, hd⟩ := xmss_absent w o h
    refine ⟨⟨d, hrun, hd⟩, fun w2 o2 a hc ho => ?_⟩
    obtain ⟨e1, e2⟩ := xmss_rejected_out w2 o2 a hc ho
    refine ⟨e2, ?_⟩
    rw [hrun]
    refine diagnostic_ne_report d _ _ 'X' ?_ e1 rfl (by decide) (by decide)
    rcases hd with ⟨rfl, -⟩ | hd
    · exact Or.inl rfl
    · rcases hd with ⟨rfl, -⟩ | hd
      · exact Or.inr rfl
      · rcases hd with ⟨rfl, -⟩ | ⟨rfl, -⟩
        · exact Or.inl rfl
        · exact Or.inl rfl

/-- A run of the XMSS consumer with the message file absent, key and signature stored. -/
theorem absent_blob_witness :
    xmss_verify_ref (worldOf [("/tmp/xmss_pk.bin", List.replicate 64 7),
        ("/tmp/xmss_sig.bin", List.replicate 2500 9)]) (fun _ => 0)
      = ⟨1, ["Cannot open msg\n"], none, []⟩ := by
  obtain ⟨d, hrun, hd⟩ := (absent_blob_fails_with_own_diagnostic.2.2.2
    (worldOf [("/tmp/xmss_pk.bin", List.replicate 64 7),
      ("/tmp/xmss_sig.bin", List.replicate 2500 9)]) (fun _ => 0)
    (Or.inr (Or.inr rfl))).1
  rcases hd with ⟨-, h⟩ | ⟨-, p, h, hlt⟩ | ⟨-, h, -⟩ | ⟨rfl, -⟩
  · have h2 : some (List.replicate 64 (7 : Byte)) = none := h
    cases h2
  · have h2 : some (List.replicate 64 (7 : Byte)) = some p := h
    cases h2
    rw [List.length_replicate] at hlt
    omega
  · have h2 : some (List.replicate 2500 (9 : Byte)) = none := h
    cases h2
  · exact hrun

/-- C8 as stated fails: with the message file absent and a stored public key of 63
bytes, the XMSS consumer prints `Failed to read pk`, not a `Cannot open` line. -/
theorem xmss_absent_msg_short_pk_diagnostic :
    (worldOf [("/tmp/xmss_pk.bin", List.replicate 63 7),
        ("/tmp/xmss_sig.bin", List.replicate 2500 9)]).blobs "/tmp/xmss_msg.bin" = none
    ∧ xmss_verify_ref (worldOf [("/tmp/xmss_pk.bin", List.replicate 63 7),
        ("/tmp/xmss_sig.bin", List.replicate 2500 9)]) (fun _ => 0)
      = ⟨1, ["Failed to read pk\n"], none, []⟩ :=
  ⟨rfl, xmss_short_pk _ _ (List.replicate 63 7) rfl (by simp)⟩

/-- C9, as the code has it. In the ML-DSA-87 consumer, with key, signature and message
read: a context file that is present and empty makes the consumer call
`crypto_sign_verify` with a context of length 0 and report the result of that call; an
absent context file ends the round with `Cannot open ctx`, exit status 1 and no call. -/
theorem mldsa87_empty_ctx_passed_absent_ctx_fatal (P : LatticeParams) (w : World)
    (o : CtxVerifyArgs → Int) (p s m : List Byte)
    (hp : w.blobs "/tmp/mldsa_pk.bin" = some p) (hN : P.CRYPTO_PUBLICKEYBYTES ≤ p.length)
    (hs : w.blobs "/tmp/mldsa_sig.bin" = some s)
    (hm : w.blobs "/tmp/mldsa_msg.bin" = some m) :
    (w.blobs "/tmp/mldsa_ctx.bin" = some [] →
      ∃ a, (mldsa87_verify_ref P w o).call = some a
        ∧ a.ctxlen = 0 ∧ a.context = []
        ∧ (mldsa87_verify_ref P w o).status = (if o a ≠ 0 then 1 else 0)
        ∧ (mldsa87_verify_ref P w o).out.getLast? =
            some ("  Verification: " ++ (if o a = 0 then "PASSED" else "FAILED") ++ "\n"))
    ∧ (w.blobs "/tmp/mldsa_ctx.bin" = none →
        mldsa87_verify_ref P w o = ⟨1, ["Cannot open ctx\n"], none, []⟩) := by
  refine ⟨fun hc => ?_, fun hc => mldsa87_no_ctx P w o p s m hp hN hs hm hc⟩
  obtain ⟨a, h1, h2, -, h4, -, -, -, -, -, h10, h11⟩ :=
    mldsa87_reaches_call P w o p s m [] hp hN hs hm hc
  exact ⟨a, h1, h10, h11, h2, h4⟩

/-- Runs of the ML-DSA-87 consumer with an empty context file and with none. -/
theorem mldsa87_ctx_witness :
    (∃ a, (mldsa87_verify_ref mldsa87Sizes
          (worldOf (("/tmp/mldsa_ctx.bin", []) ::
            mldsaFilesNoCtx (List.replicate 2592 7) (List.replicate 4627 9) testMsg))
          (fun _ => 0)).call = some a
        ∧ a.ctxlen = 0 ∧ a.context = []
        ∧ (mldsa87_verify_ref mldsa87Sizes
          (worldOf (("/tmp/mldsa_ctx.bin", []) ::
            mldsaFilesNoCtx (List.replicate 2592 7) (List.replicate 4627 9) testMsg))
          (fun _ => 0)).status = (if (fun _ => (0 : Int)) a ≠ 0 then 1 else 0)
        ∧ (mldsa87_verify_ref mldsa87Sizes
          (worldOf (("/tmp/mldsa_ctx.bin", []) ::
            mldsaFilesNoCtx (List.replicate 2592 7) (List.replicate 4627 9) testMsg))
          (fun _ => 0)).out.getLast? =
            some ("  Verification: " ++
              (if (fun _ => (0 : Int)) a = 0 then "PASSED" else "FAILED") ++ "\n"))
    ∧ mldsa87_verify_ref mldsa87Sizes
        (worldOf (mldsaFilesNoCtx (List.replicate 2592 7) (List.replicate 4627 9) testMsg))
        (fun _ => 0) = ⟨1, ["Cannot open ctx\n"], none, []⟩ :=
  ⟨(mldsa87_empty_ctx_passed_absent_ctx_fatal mldsa87Sizes
      (worldOf (("/tmp/mldsa_ctx.bin", []) ::
        mldsaFilesNoCtx (List.replicate 2592 7) (List.replicate 4627 9) testMsg))
      (fun _ => 0) (List.replicate 2592 7) (List.replicate 4627 9) testMsg rfl
      (by rw [List.length_replicate]; exact Nat.le_refl _) rfl rfl).1 rfl,
   (mldsa87_empty_ctx_passed_absent_ctx_fatal mldsa87Sizes
      (worldOf (mldsaFilesNoCtx (List.replicate 2592 7) (List.replicate 4627 9) testMsg))
      (fun _ => 0) (List.replicate 2592 7) (List.replicate 4627 9) testMsg rfl
      (by rw [List.length_replicate]; exact Nat.le_refl _) rfl rfl).2 rfl⟩

/-- C9 as stated fails: with key, signature and message stored and no context file, the
ML-DSA-87 consumer does not call `crypto_sign_verify` with an empty context; it prints
`Cannot open ctx` and exits with status 1. -/
theorem mldsa87_absent_ctx_fails_round :
    (worldOf (mldsaFilesNoCtx (List.replicate 2592 7) (List.replicate 4627 9) testMsg)).blobs
        "/tmp/mldsa_ctx.bin" = none
    ∧ mldsa87_verify_ref mldsa87Sizes
        (worldOf (mldsaFilesNoCtx (List.replicate 2592 7) (List.replicate 4627 9) testMsg))
        (fun _ => 0) = ⟨1, ["Cannot open ctx\n"], none, []⟩ :=
  ⟨rfl, mldsa87_no_ctx mldsa87Sizes _ _ (List.replicate 2592 7) (List.replicate 4627 9)
    testMsg rfl (by rw [List.length_replicate]; exact Nat.le_refl _) rfl rfl rfl⟩

/-- C2 fails on sphincs_sign_ref.c: with the seed read and key generation and signing
returning 0, a rejecting self-verification leaves the three files written, and the exit
status is 1. -/
theorem sphincs_producer_publishes_before_self_verify :
    (sphincs_sign_ref shake256sSizes seedWorld keypairOk signOk verifyRejects).status = 1
    ∧ (sphincs_sign_ref shake256sSizes seedWorld keypairOk signOk verifyRejects).written.map
        Prod.fst =
      ["/tmp/ref_sphincs_pk.bin", "/tmp/ref_sphincs_sig.bin", "/tmp/ref_sphincs_msg.bin"]
    ∧ ∃ a, (sphincs_sign_ref shake256sSizes seedWorld keypairOk signOk verifyRejects).call
        = some a ∧ verifyRejects a ≠ 0 := by
  obtain ⟨a, h1, h2, h3, -⟩ := sphincs_sign_writes shake256sSizes seedWorld keypairOk signOk
    verifyRejects (List.replicate 96 1) rfl
    (by rw [List.length_replicate]; exact Nat.le_refl _) (fun _ _ _ => rfl)
    (fun _ _ _ _ => rfl)
  have hv : verifyRejects a ≠ 0 := by simp [verifyRejects]
  refine ⟨?_, h3, a, h1, hv⟩
  rw [h2, if_pos hv]

end CrossVerify
